import Mathlib

/-!
The contact form and the mail relay endpoint of resend_setup

A shallow embedding of the two source files

* `src/app/api/sendEmail/route.js`  (the `POST` handler), and
* `src/app/components/Contact.jsx`  (`handleChange`, `handleSubmit`),

together with the part of the JavaScript runtime they call
(`JSON.stringify`, `JSON.parse`, property reads, template literals,
truthiness).

Modelling choices.

* JavaScript values are finite trees (`JsVal`).  A string is its sequence
  of UTF-16 code units, a Number is an IEEE 754 double given by its sign,
  mantissa and binary exponent, and a BigInt is an integer.  Functions,
  symbols and objects that hold themselves are not values of the model; the
  BigInt is the value of the model that `JSON.stringify` cannot write.
* An object is its list of own enumerable properties in the order
  JavaScript lists them: the array indices in ascending order, then the
  other keys in the order of their creation.
* A computation that may throw returns `Except JsVal α`.
* A text on the wire (a request or response body, after UTF-8 decoding) is
  a `String`.
* The mail provider SDK (`resend`), the environment variable and the
  browser's `fetch` are parameters.
-/

set_option maxRecDepth 8000

namespace Js

/-! ## Strings -/

/-- A UTF-16 code unit. -/
abbrev CodeUnit := Fin 65536

/-- A JavaScript string: a sequence of UTF-16 code units, well-formed or not. -/
abbrev JsString := List CodeUnit

/-- The code units of one character. -/
def charUnits (c : Char) : List CodeUnit :=
  if c.toNat < 0x10000 then [Fin.ofNat c.toNat]
  else [Fin.ofNat (0xD800 + (c.toNat - 0x10000) / 0x400),
        Fin.ofNat (0xDC00 + (c.toNat - 0x10000) % 0x400)]

/-- The code units of a text. -/
def unitsOf : List Char → JsString
  | [] => []
  | c :: cs => charUnits c ++ unitsOf cs

/-- The JavaScript string of a string literal of the source. -/
def utf16 (s : String) : JsString := unitsOf s.data

/-- String.prototype.includes on code units: `t` occurs in `s`. -/
def JsString.includes (s t : JsString) : Prop := t <:+: s

instance (s t : JsString) : Decidable (JsString.includes s t) := by
  unfold JsString.includes; infer_instance

/-- String.prototype.includes on a string of the source: `t` occurs in `s`
(Contact.jsx, line 109, applies it to the status). -/
def includes (s t : String) : Prop := t.data <:+: s.data

instance (s t : String) : Decidable (includes s t) := by unfold includes; infer_instance

/-! ## Numbers -/

/-- A Number: an IEEE 754 double. `finite neg m e` is `m * 2 ^ e`, negated
when `neg` holds, with `m` odd, or `m = 0` and `e = 0` for the two zeros. -/
inductive Number where
  | nan
  | infinity (neg : Bool)
  | finite (neg : Bool) (m : Nat) (e : Int)
  deriving DecidableEq, Inhabited

/-- The number of binary digits of `n`, counted in at most `fuel` steps. -/
def bitLengthAux : Nat → Nat → Nat
  | 0, _ => 0
  | fuel + 1, n => if n = 0 then 0 else bitLengthAux fuel (n / 2) + 1

/-- The number of binary digits of `n`. -/
def bitLength (n : Nat) : Nat := bitLengthAux n n

/-- Remove the trailing zero bits of a mantissa. -/
def normalizeAux : Nat → Nat → Int → Nat × Int
  | 0, m, e => (m, e)
  | fuel + 1, m, e => if m % 2 = 0 then normalizeAux fuel (m / 2) (e + 1) else (m, e)

/-- The canonical form of `m * 2 ^ e`. -/
def Number.normal (neg : Bool) (m : Nat) (e : Int) : Number :=
  if m = 0 then .finite neg 0 0
  else .finite neg (normalizeAux m m e).1 (normalizeAux m m e).2

/-- The quotient `a / b` rounded to the nearest integer, ties to even. -/
def roundHalfEven (a b : Nat) : Nat :=
  if 2 * (a % b) < b then a / b
  else if b < 2 * (a % b) then a / b + 1
  else if a / b % 2 = 0 then a / b
  else a / b + 1

/-- Whether `2 ^ g ≤ num / den`. -/
def geTwoPow (num den : Nat) (g : Int) : Bool :=
  if 0 ≤ g then decide (den * 2 ^ g.toNat ≤ num) else decide (den ≤ num * 2 ^ (-g).toNat)

/-- The double nearest to `num / den` (ties to even), for `den` positive:
53 bits of mantissa, binary exponents from -1074 to 971, an infinity beyond. -/
def Number.ofRat (neg : Bool) (num den : Nat) : Number :=
  if num = 0 then .finite neg 0 0
  else
    let g : Int := (bitLength num : Int) - (bitLength den : Int)
    let e2 : Int := if geTwoPow num den g then g else g - 1
    let sh : Int := max (e2 - 52) (-1074)
    let m : Nat :=
      if 0 ≤ sh then roundHalfEven num (den * 2 ^ sh.toNat)
      else roundHalfEven (num * 2 ^ (-sh).toNat) den
    if 971 < sh ∨ (sh = 971 ∧ 2 ^ 53 ≤ m) then .infinity neg
    else Number.normal neg m sh

/-- The number of decimal digits of `n`, counted in at most `fuel` steps. -/
def decLengthAux : Nat → Nat → Nat
  | 0, _ => 0
  | fuel + 1, n => if n = 0 then 0 else decLengthAux fuel (n / 10) + 1

/-- The number of decimal digits of `n`. -/
def decLength (n : Nat) : Nat := decLengthAux n n

/-- StringToNumber on the decimal `d * 10 ^ p`: the nearest double. A
decimal of 10 ^ 309 or more is an infinity and one below 10 ^ -324 is a zero
(the two bounds only spare the computation of a large power). -/
def Number.ofDecimal (neg : Bool) (d : Nat) (p : Int) : Number :=
  if d = 0 then .finite neg 0 0
  else if 309 ≤ (decLength d : Int) - 1 + p then .infinity neg
  else if (decLength d : Int) + p ≤ -324 then .finite neg 0 0
  else if 0 ≤ p then Number.ofRat neg (d * 10 ^ p.toNat) 1
  else Number.ofRat neg d (10 ^ (-p).toNat)

/-- Whether `num / den < 10 ^ n`. -/
def ltTenPow (num den : Nat) (n : Int) : Bool :=
  if 0 ≤ n then decide (num < den * 10 ^ n.toNat) else decide (num * 10 ^ (-n).toNat < den)

/-- The least `n` from the given one on with `num / den < 10 ^ n`. -/
def decExponentAux : Nat → Nat → Nat → Int → Int
  | 0, _, _, n => n
  | fuel + 1, num, den, n =>
    if ltTenPow num den n then n else decExponentAux fuel num den (n + 1)

/-- The floor of `num / den * 10 ^ j`, and whether what is left is below,
at or above one half (0, 1, 2). -/
def scaled (num den : Nat) (j : Int) : Nat × Nat :=
  let a := if 0 ≤ j then num * 10 ^ j.toNat else num
  let b := if 0 ≤ j then den else den * 10 ^ (-j).toNat
  (a / b, if 2 * (a % b) < b then 0 else if 2 * (a % b) = b then 1 else 2)

/-- Whether the `k`-digit `s` with the exponent `n`, the decimal
`s * 10 ^ (n - k)`, rounds to `x`. -/
def roundsTo (x : Number) (s : Nat) (n : Int) (k : Nat) : Bool :=
  decide (Number.ofDecimal false s (n - k) = x)

/-- The `k` digits after `lo` and their exponent: `lo + 1`, or a one and
zeros with the next exponent when `lo` is all nines. -/
def nextDigits (lo k : Nat) (n : Int) : Nat × Int :=
  if lo + 1 = 10 ^ k then (10 ^ (k - 1), n + 1) else (lo + 1, n)

/-- The search of Number::toString for the positive value `x = num / den`
with `10 ^ (n - 1) ≤ x < 10 ^ n`: the least `k` from the given one on, and a
`k`-digit `s`, such that `s * 10 ^ (n - k)` rounds to `x`; of two such `s` the
nearer to `x`, the even one on a tie. The result is `s` and its exponent. A
double needs 17 digits at most, so the search does not come to its end. -/
def shortestAux (x : Number) (num den : Nat) (n : Int) : Nat → Nat → Nat × Int
  | 0, k => nextDigits (scaled num den ((k : Int) - n)).1 k n
  | fuel + 1, k =>
    if roundsTo x (scaled num den ((k : Int) - n)).1 n k then
      if roundsTo x (nextDigits (scaled num den ((k : Int) - n)).1 k n).1
          (nextDigits (scaled num den ((k : Int) - n)).1 k n).2 k then
        if (scaled num den ((k : Int) - n)).2 = 0 then ((scaled num den ((k : Int) - n)).1, n)
        else if (scaled num den ((k : Int) - n)).2 = 2 then
          nextDigits (scaled num den ((k : Int) - n)).1 k n
        else if (scaled num den ((k : Int) - n)).1 % 2 = 0 then
          ((scaled num den ((k : Int) - n)).1, n)
        else nextDigits (scaled num den ((k : Int) - n)).1 k n
      else ((scaled num den ((k : Int) - n)).1, n)
    else if roundsTo x (nextDigits (scaled num den ((k : Int) - n)).1 k n).1
        (nextDigits (scaled num den ((k : Int) - n)).1 k n).2 k then
      nextDigits (scaled num den ((k : Int) - n)).1 k n
    else shortestAux x num den n fuel (k + 1)

/-- The digits `s` and the exponent `n` of Number::toString for `m * 2 ^ e`
with `m` positive: a double needs 17 digits at most. -/
def shortest (m : Nat) (e : Int) : Nat × Int :=
  let num := if 0 ≤ e then m * 2 ^ e.toNat else m
  let den := if 0 ≤ e then 1 else 2 ^ (-e).toNat
  let n := decExponentAux 700 num den (-340)
  shortestAux (Number.normal false m e) num den n 17 1

/-- The character of a decimal digit. -/
def digitChar (d : Nat) : Char := Char.ofNat (48 + d)

/-- Decimal digits of `n`, most significant first, in front of `acc`. -/
def natDigitsAux : Nat → Nat → List Char → List Char
  | 0, _, acc => acc
  | fuel + 1, n, acc =>
    if n / 10 = 0 then digitChar (n % 10) :: acc
    else natDigitsAux fuel (n / 10) (digitChar (n % 10) :: acc)

/-- Decimal numeral of a natural number. -/
def natDigits (n : Nat) : List Char := natDigitsAux (n + 1) n []

/-- BigInt::toString: the decimal numeral of an integer. -/
def decimal : Int → List Char
  | .ofNat n => natDigits n
  | .negSucc n => '-' :: natDigits (n + 1)

/-- The sign that Number::toString writes in front of an exponent. -/
def expSign (e : Int) : Char := if 0 ≤ e then '+' else '-'

/-- Steps 7 to 11 of Number::toString: the text of the digits `s` with the
exponent `n`. -/
def printDigits (s : Nat) (n : Int) : List Char :=
  if ((natDigits s).length : Int) ≤ n ∧ n ≤ 21 then
    natDigits s ++ List.replicate (n.toNat - (natDigits s).length) '0'
  else if 0 < n ∧ n ≤ 21 then
    (natDigits s).take n.toNat ++ '.' :: (natDigits s).drop n.toNat
  else if -6 < n ∧ n ≤ 0 then
    '0' :: '.' :: (List.replicate (-n).toNat '0' ++ natDigits s)
  else
    match natDigits s with
    | [] => []
    | d :: ds =>
      (if ds.isEmpty then [d] else d :: '.' :: ds)
        ++ 'e' :: expSign (n - 1) :: natDigits (n - 1).natAbs

/-- Number::toString with radix 10. -/
def Number.toString : Number → List Char
  | .nan => ['N', 'a', 'N']
  | .infinity neg =>
    if neg then ['-', 'I', 'n', 'f', 'i', 'n', 'i', 't', 'y']
    else ['I', 'n', 'f', 'i', 'n', 'i', 't', 'y']
  | .finite neg m e =>
    if m = 0 then ['0']
    else if neg then '-' :: printDigits (shortest m e).1 (shortest m e).2
    else printDigits (shortest m e).1 (shortest m e).2

/-! ## Values -/

/-- JavaScript values. `error n m` is an `Error` instance whose `name` is `n`
and whose `message` is `m` (no enumerable own property). -/
inductive JsVal where
  | undefined
  | null
  | bool (b : Bool)
  | num (x : Number)
  | bigint (n : Int)
  | str (s : JsString)
  | arr (xs : List JsVal)
  | obj (ps : List (JsString × JsVal))
  | error (name message : JsString)
  deriving Inhabited

/-- The own enumerable properties of an object, in order. -/
abbrev Obj := List (JsString × JsVal)

/-- Property read `o[k]` on the own properties: `undefined` when absent. -/
def Obj.get : Obj → JsString → JsVal
  | [], _ => .undefined
  | (k', v) :: ps, k => if k' = k then v else Obj.get ps k

/-- The keys of an object, in order. -/
def Obj.keys {α : Type} (o : List (JsString × α)) : List JsString := o.map Prod.fst

/-- The number written by decimal digits, as code units. -/
def unitsValue (k : JsString) : Nat := k.foldl (fun a u => a * 10 + (u.val - 48)) 0

/-- Whether a code unit is a decimal digit. -/
def isDigitUnit (u : CodeUnit) : Bool := decide (48 ≤ u.val) && decide (u.val ≤ 57)

/-- The array index a key stands for, if it is one: the canonical numeral
of an integer from 0 to 2 ^ 32 - 2. -/
def arrayIndex : JsString → Option Nat
  | [] => none
  | u :: us =>
    if (u.val = 48 ∧ us = []) ∨ (49 ≤ u.val ∧ u.val ≤ 57 ∧ us.all isDigitUnit = true) then
      (if unitsValue (u :: us) ≤ 4294967294 then some (unitsValue (u :: us)) else none)
    else none

/-- Whether a new key `k` is listed before the key `k'`: the array indices
come first, in ascending order, and every other key follows in the order of
its creation. -/
def goesBefore (k k' : JsString) : Bool :=
  match arrayIndex k, arrayIndex k' with
  | some i, some j => decide (i < j)
  | some _, none => true
  | none, _ => false

/-- Property definition `o[k] = v` as done by an object literal, a spread
followed by a computed key, or `JSON.parse`: an existing key keeps its
position and takes the new value; a new key goes to its place among the
array indices, or last. -/
def Obj.set {α : Type} : List (JsString × α) → JsString → α → List (JsString × α)
  | [], k, v => [(k, v)]
  | (k', v') :: ps, k, v =>
    if k' = k then (k', v) :: ps
    else if goesBefore k k' && !(Obj.keys ps).contains k then (k, v) :: (k', v') :: ps
    else (k', v') :: Obj.set ps k v

/-- A `TypeError` instance. The wording of a runtime error is the engine's
own; the model fixes one. -/
def typeError (msg : String) : JsVal := .error (utf16 "TypeError") (utf16 msg)

/-- A `SyntaxError` instance. -/
def syntaxError (msg : String) : JsVal := .error (utf16 "SyntaxError") (utf16 msg)

/-- The read `v.k` for a key `k` that no built-in prototype defines
(`name`, `email`, `message` on the request body, `success` on the response
data): it throws a `TypeError` on `null` and `undefined`, reads the own
property of an object, and is `undefined` on every other value.  An `Error`
instance answers `name` and `message`. -/
def JsVal.getProp : JsVal → JsString → Except JsVal JsVal
  | .undefined, _ => .error (typeError "Cannot read properties of undefined")
  | .null, _ => .error (typeError "Cannot read properties of null")
  | .obj ps, k => .ok (Obj.get ps k)
  | .error n m, k =>
    .ok (if k = utf16 "name" then .str n else if k = utf16 "message" then .str m else .undefined)
  | _, _ => .ok .undefined

/-- ToBoolean: `undefined`, `null`, `false`, the zeros, `NaN`, the BigInt
zero and the empty string are falsy, everything else is truthy. -/
def JsVal.truthy : JsVal → Bool
  | .undefined => false
  | .null => false
  | .bool b => b
  | .num (.finite _ m _) => m != 0
  | .num .nan => false
  | .num (.infinity _) => true
  | .bigint n => n != 0
  | .str s => !s.isEmpty
  | _ => true

/-! ## ToString, as applied by a template literal -/

mutual
/-- ToString.  An object goes through ToPrimitive: a plain object prints as
`[object Object]`, unless it has an own `toString` property, which (no value
of the model being callable) leaves no way to a primitive and throws a
`TypeError`; an array is joined with commas. -/
def JsVal.toStr : JsVal → Except JsVal JsString
  | .undefined => .ok (utf16 "undefined")
  | .null => .ok (utf16 "null")
  | .bool b => .ok (if b then utf16 "true" else utf16 "false")
  | .num x => .ok (unitsOf (Number.toString x))
  | .bigint n => .ok (unitsOf (decimal n))
  | .str s => .ok s
  | .arr xs => joinStr xs
  | .obj ps =>
    if utf16 "toString" ∈ Obj.keys ps then
      .error (typeError "Cannot convert object to primitive value")
    else .ok (utf16 "[object Object]")
  | .error n m => .ok (if n.isEmpty then m else if m.isEmpty then n else n ++ utf16 ": " ++ m)
/-- Array.prototype.join with the separator `,`: `undefined` and `null`
elements print as the empty string. -/
def joinStr : List JsVal → Except JsVal JsString
  | [] => .ok []
  | x :: xs =>
    match (match x with
      | .undefined => Except.ok []
      | .null => Except.ok []
      | y => JsVal.toStr y) with
    | .error e => .error e
    | .ok s =>
      match xs with
      | [] => .ok s
      | _ :: _ =>
        match joinStr xs with
        | .error e => .error e
        | .ok r => .ok (s ++ utf16 "," ++ r)
end

/-! ## JSON.stringify -/

/-- A lowercase hexadecimal digit. -/
def hexDigit (n : Nat) : Char := if n < 10 then Char.ofNat (48 + n) else Char.ofNat (87 + n)

/-- UnicodeEscape: a code unit as `\u` and four hexadecimal digits. -/
def unicodeEscape (u : Nat) : List Char :=
  ['\\', 'u', hexDigit (u / 4096), hexDigit (u / 256 % 16), hexDigit (u / 16 % 16),
    hexDigit (u % 16)]

/-- QuoteJSONString on a code unit that is not part of a surrogate pair: the
quote, the backslash and the control characters are escaped, a lone
surrogate is written as a `\u` escape, every other unit is its character. -/
def quoteUnit (u : CodeUnit) : List Char :=
  if u.val = 34 then ['\\', '"']
  else if u.val = 92 then ['\\', '\\']
  else if u.val = 8 then ['\\', 'b']
  else if u.val = 12 then ['\\', 'f']
  else if u.val = 10 then ['\\', 'n']
  else if u.val = 13 then ['\\', 'r']
  else if u.val = 9 then ['\\', 't']
  else if u.val < 32 then unicodeEscape u.val
  else if 0xD800 ≤ u.val ∧ u.val ≤ 0xDFFF then unicodeEscape u.val
  else [Char.ofNat u.val]

/-- Whether a high surrogate is followed by a low surrogate. -/
def isPair (u v : CodeUnit) : Bool :=
  decide (0xD800 ≤ u.val) && decide (u.val ≤ 0xDBFF) && decide (0xDC00 ≤ v.val)
    && decide (v.val ≤ 0xDFFF)

/-- The character of a surrogate pair. -/
def pairChar (u v : CodeUnit) : Char :=
  Char.ofNat (0x10000 + (u.val - 0xD800) * 0x400 + (v.val - 0xDC00))

/-- The escaped text of a string, without the surrounding quotes: a
surrogate pair is written as its character. -/
def quoteBody : JsString → List Char
  | [] => []
  | [u] => quoteUnit u
  | u :: v :: rest =>
    if isPair u v then pairChar u v :: quoteBody rest
    else quoteUnit u ++ quoteBody (v :: rest)

/-- QuoteJSONString. -/
def quote (s : JsString) : List Char := '"' :: (quoteBody s ++ ['"'])

/-- Every text with a comma in front. -/
def commaTail : List (List Char) → List Char
  | [] => []
  | t :: ts => ',' :: (t ++ commaTail ts)

/-- Comma-separated concatenation. -/
def joinComma : List (List Char) → List Char
  | [] => []
  | t :: ts => t ++ commaTail ts

mutual
/-- Whether a BigInt is among the values `JSON.stringify` comes to write: the
value itself, an element of an array, or the value of a property. -/
def holdsBigInt : JsVal → Bool
  | .bigint _ => true
  | .arr xs => holdsBigIntElems xs
  | .obj ps => holdsBigIntProps ps
  | _ => false
/-- Whether an element holds a BigInt. -/
def holdsBigIntElems : List JsVal → Bool
  | [] => false
  | x :: xs => holdsBigInt x || holdsBigIntElems xs
/-- Whether the value of a property holds a BigInt. -/
def holdsBigIntProps : List (JsString × JsVal) → Bool
  | [] => false
  | (_, v) :: ps => holdsBigInt v || holdsBigIntProps ps
end

mutual
/-- SerializeJSONProperty without indentation, on a value that holds no
BigInt: `none` is JavaScript's `undefined` result. A Number that is not
finite prints as `null`; an `Error` instance has no enumerable own property
and prints as the empty object. -/
def serialize : JsVal → Option (List Char)
  | .undefined => none
  | .null => some ['n', 'u', 'l', 'l']
  | .bool b => some (if b then ['t', 'r', 'u', 'e'] else ['f', 'a', 'l', 's', 'e'])
  | .num (.finite neg m e) => some (Number.toString (.finite neg m e))
  | .num _ => some ['n', 'u', 'l', 'l']
  | .bigint _ => none
  | .str s => some (quote s)
  | .arr xs => some ('[' :: (joinComma (serializeElems xs) ++ [']']))
  | .obj ps => some ('{' :: (joinComma (serializeProps ps) ++ ['}']))
  | .error _ _ => some ['{', '}']
/-- SerializeJSONArray: an element without a serialization prints as `null`. -/
def serializeElems : List JsVal → List (List Char)
  | [] => []
  | x :: xs => (serialize x).getD ['n', 'u', 'l', 'l'] :: serializeElems xs
/-- SerializeJSONObject: a property without a serialization is left out. -/
def serializeProps : List (JsString × JsVal) → List (List Char)
  | [] => []
  | (k, v) :: ps =>
    match serialize v with
    | none => serializeProps ps
    | some t => (quote k ++ ':' :: t) :: serializeProps ps
end

/-- The call `JSON.stringify(v)`: it throws a `TypeError` when it comes to
write a BigInt; otherwise it returns the text, or `undefined` (`none`). The
text is well-formed Unicode. -/
def JSON.stringify (v : JsVal) : Except JsVal (Option String) :=
  if holdsBigInt v then .error (typeError "Do not know how to serialize a BigInt")
  else .ok ((serialize v).map String.mk)

/-! ## JSON.parse -/

/-- JSON white space. -/
def isWs (c : Char) : Bool := c = ' ' || c = '\t' || c = '\n' || c = '\r'

/-- Drop leading white space. -/
def skipWs : List Char → List Char
  | [] => []
  | c :: cs => if isWs c then skipWs cs else c :: cs

/-- The value of a hexadecimal digit. -/
def hexVal (c : Char) : Option Nat :=
  if 48 ≤ c.toNat ∧ c.toNat ≤ 57 then some (c.toNat - 48)
  else if 97 ≤ c.toNat ∧ c.toNat ≤ 102 then some (c.toNat - 87)
  else if 65 ≤ c.toNat ∧ c.toNat ≤ 70 then some (c.toNat - 55)
  else none

/-- The code unit of a single-letter escape. -/
def unescape (e : Char) : Option CodeUnit :=
  if e = '"' then some 34
  else if e = '\\' then some 92
  else if e = '/' then some 47
  else if e = 'b' then some 8
  else if e = 'f' then some 12
  else if e = 'n' then some 10
  else if e = 'r' then some 13
  else if e = 't' then some 9
  else none

/-- Put code units in front of a parsed string. -/
def consUnits (us : List CodeUnit) :
    Option (JsString × List Char) → Option (JsString × List Char)
  | none => none
  | some (s, rest) => some (us ++ s, rest)

/-- Where the reading of a string stands: between characters, after a
backslash, or inside a `\u` escape with `left` digits to come and `val` read
so far. -/
inductive StrMode where
  | plain
  | escaped
  | hex (left val : Nat)

/-- Read a JSON string one character at a time, up to its closing quote: a
character stands for its code units, a `\u` escape for one code unit. -/
def scanString : StrMode → List Char → Option (JsString × List Char)
  | _, [] => none
  | .plain, c :: cs =>
    if c = '\\' then scanString .escaped cs
    else if c = '"' then some ([], cs)
    else if c.toNat < 32 then none
    else consUnits (charUnits c) (scanString .plain cs)
  | .escaped, e :: cs =>
    if e = 'u' then scanString (.hex 4 0) cs
    else
      match unescape e with
      | none => none
      | some x => consUnits [x] (scanString .plain cs)
  | .hex left val, d :: cs =>
    match hexVal d with
    | none => none
    | some h =>
      if 1 < left then scanString (.hex (left - 1) (val * 16 + h)) cs
      else consUnits [Fin.ofNat (val * 16 + h)] (scanString .plain cs)

/-- A JSON string after its opening quote: the code units up to the closing
quote, and what follows it. -/
def parseStringBody (cs : List Char) : Option (JsString × List Char) :=
  scanString .plain cs

/-- Whether a character is a decimal digit. -/
def isDigit (c : Char) : Bool := decide (48 ≤ c.toNat) && decide (c.toNat ≤ 57)

/-- The decimal digits at the head of the input, and what follows them. -/
def spanDigits : List Char → List Char × List Char
  | [] => ([], [])
  | c :: cs => if isDigit c then (c :: (spanDigits cs).1, (spanDigits cs).2) else ([], c :: cs)

/-- The natural number written by decimal digits. -/
def digitsValue (ds : List Char) : Nat := ds.foldl (fun a c => a * 10 + (c.toNat - 48)) 0

/-- The integer part of a JSON number: a lone `0`, or digits not starting
with `0`. -/
def lexInt : List Char → Option (List Char × List Char)
  | [] => none
  | c :: cs =>
    if c = '0' then some (['0'], cs)
    else if isDigit c then some (c :: (spanDigits cs).1, (spanDigits cs).2)
    else none

/-- The fraction of a JSON number, if there is one: a point and at least one
digit. -/
def lexFrac : List Char → Option (List Char × List Char)
  | [] => some ([], [])
  | c :: cs =>
    if c = '.' then (if (spanDigits cs).1.isEmpty then none else some (spanDigits cs))
    else some ([], c :: cs)

/-- The digits of an exponent after its sign: at least one. -/
def lexExpDigits (neg : Bool) (cs : List Char) : Option (Int × List Char) :=
  if (spanDigits cs).1.isEmpty then none
  else some (if neg then -(digitsValue (spanDigits cs).1 : Int)
    else (digitsValue (spanDigits cs).1 : Int), (spanDigits cs).2)

/-- The exponent of a JSON number, if there is one. -/
def lexExp : List Char → Option (Int × List Char)
  | [] => some (0, [])
  | c :: cs =>
    if c = 'e' ∨ c = 'E' then
      match cs with
      | [] => none
      | s :: cs1 =>
        if s = '-' then lexExpDigits true cs1
        else if s = '+' then lexExpDigits false cs1
        else lexExpDigits false (s :: cs1)
    else some (0, c :: cs)

/-- A JSON number without its sign, as the nearest double. -/
def parseUnsigned (neg : Bool) (cs : List Char) : Option (Number × List Char) :=
  match lexInt cs with
  | none => none
  | some (ip, cs1) =>
    match lexFrac cs1 with
    | none => none
    | some (fp, cs2) =>
      match lexExp cs2 with
      | none => none
      | some (ex, cs3) =>
        some (Number.ofDecimal neg (digitsValue (ip ++ fp)) (ex - (fp.length : Int)), cs3)

/-- A JSON number. -/
def parseNumber : List Char → Option (Number × List Char)
  | [] => none
  | c :: cs => if c = '-' then parseUnsigned true cs else parseUnsigned false (c :: cs)

/-- Expect the given characters at the head of the input. -/
def expect : List Char → List Char → Option (List Char)
  | [], cs => some cs
  | _ :: _, [] => none
  | k :: ks, c :: cs => if k = c then expect ks cs else none

mutual
/-- A JSON value, with what follows it. The first argument bounds the number
of nested calls; `JSON.parse` passes the length of the text plus one. -/
def parseValue : Nat → List Char → Option (JsVal × List Char)
  | 0, _ => none
  | fuel + 1, cs =>
    match skipWs cs with
    | [] => none
    | c :: rest =>
      if c = '{' then
        match skipWs rest with
        | [] => none
        | d :: rest1 => if d = '}' then some (.obj [], rest1) else parseMembers fuel [] (d :: rest1)
      else if c = '[' then
        match skipWs rest with
        | [] => none
        | d :: rest1 => if d = ']' then some (.arr [], rest1) else parseElems fuel [] (d :: rest1)
      else if c = '"' then
        match parseStringBody rest with
        | none => none
        | some (s, rest1) => some (.str s, rest1)
      else if c = 't' then (expect ['r', 'u', 'e'] rest).map fun r => (.bool true, r)
      else if c = 'f' then (expect ['a', 'l', 's', 'e'] rest).map fun r => (.bool false, r)
      else if c = 'n' then (expect ['u', 'l', 'l'] rest).map fun r => (.null, r)
      else
        match parseNumber (c :: rest) with
        | none => none
        | some (x, rest1) => some (.num x, rest1)
/-- The elements of a non-empty array after `[`; `acc` holds the elements
read so far. -/
def parseElems : Nat → List JsVal → List Char → Option (JsVal × List Char)
  | 0, _, _ => none
  | fuel + 1, acc, cs =>
    match parseValue fuel cs with
    | none => none
    | some (v, rest) =>
      match skipWs rest with
      | [] => none
      | c :: rest1 =>
        if c = ',' then parseElems fuel (acc ++ [v]) rest1
        else if c = ']' then some (.arr (acc ++ [v]), rest1)
        else none
/-- The members of a non-empty object after the opening brace; `acc` holds
the properties defined so far. A repeated key overrides the earlier value. -/
def parseMembers : Nat → Obj → List Char → Option (JsVal × List Char)
  | 0, _, _ => none
  | fuel + 1, acc, cs =>
    match skipWs cs with
    | [] => none
    | q :: rest =>
      if q = '"' then
        match parseStringBody rest with
        | none => none
        | some (k, rest1) =>
          match skipWs rest1 with
          | [] => none
          | c :: rest2 =>
            if c = ':' then
              match parseValue fuel rest2 with
              | none => none
              | some (v, rest3) =>
                match skipWs rest3 with
                | [] => none
                | d :: rest4 =>
                  if d = ',' then parseMembers fuel (Obj.set acc k v) rest4
                  else if d = '}' then some (.obj (Obj.set acc k v), rest4)
                  else none
            else none
      else none
end

/-- The call `JSON.parse(text)`: the value, or a thrown `SyntaxError`. -/
def JSON.parse (text : String) : Except JsVal JsVal :=
  match parseValue (text.data.length + 1) text.data with
  | none => .error (syntaxError "Unexpected token in JSON")
  | some (v, rest) =>
    match skipWs rest with
    | [] => .ok v
    | _ :: _ => .error (syntaxError "Unexpected non-whitespace character after JSON")

/-- UTF-8 decode, as the body readers apply it, on a decoded text: a leading
byte order mark is dropped. -/
def dropBom (text : String) : String :=
  match text.data with
  | c :: cs => if c.toNat = 0xFEFF then String.mk cs else text
  | [] => text

/-! ## What a value becomes on its way through JSON -/

/-- The Number read back from the text of a finite Number. -/
def Number.reread (x : Number) : Number :=
  match parseNumber (Number.toString x) with
  | some (y, _) => y
  | none => x

mutual
/-- The value `JSON.parse(JSON.stringify(v))`, for a value that holds no
BigInt: an `Error` instance comes back as the empty object, a Number that is
not finite and an array element without a serialization as `null`, and a
property without a serialization does not come back. -/
def jsonImage : JsVal → JsVal
  | .undefined => .undefined
  | .null => .null
  | .bool b => .bool b
  | .num (.finite neg m e) => .num (Number.reread (.finite neg m e))
  | .num _ => .null
  | .bigint n => .bigint n
  | .str s => .str s
  | .arr xs => .arr (jsonImageElems xs)
  | .obj ps => .obj ((jsonImageProps ps).foldl (fun acc p => Obj.set acc p.1 p.2) [])
  | .error _ _ => .obj []
/-- The elements of the array that comes back. -/
def jsonImageElems : List JsVal → List JsVal
  | [] => []
  | x :: xs =>
    (match serialize x with
      | none => JsVal.null
      | some _ => jsonImage x) :: jsonImageElems xs
/-- The properties that come back, in the order they are written. -/
def jsonImageProps : List (JsString × JsVal) → List (JsString × JsVal)
  | [] => []
  | (k, v) :: ps =>
    match serialize v with
    | none => jsonImageProps ps
    | some _ => (k, jsonImage v) :: jsonImageProps ps
end

mutual
/-- A bound on the nested calls `parseValue` makes on the serialization of a
value. -/
def parseCost : JsVal → Nat
  | .arr xs => 1 + parseCostElems xs
  | .obj ps => 1 + parseCostProps ps
  | _ => 1
/-- The bound for the elements of an array. -/
def parseCostElems : List JsVal → Nat
  | [] => 0
  | x :: xs => 1 + parseCost x + parseCostElems xs
/-- The bound for the properties of an object. -/
def parseCostProps : List (JsString × JsVal) → Nat
  | [] => 0
  | (_, v) :: ps =>
    match serialize v with
    | none => parseCostProps ps
    | some _ => 1 + parseCost v + parseCostProps ps
end

/-- Whether a number may end before this input: it does not go on with a
digit, a fraction or an exponent. -/
def endsNumber : List Char → Bool
  | [] => true
  | c :: _ => !(isDigit c || c == '.' || c == 'e' || c == 'E')

end Js

/-! ## HTTP messages -/

namespace Http

open Js

/-- An incoming request: the text of its body (`none` when it has none). -/
structure Request where
  body : Option String

/-- The call `req.json()`: the body text, without a byte order mark, parsed
as JSON. -/
def Request.json (req : Request) : Except JsVal JsVal := JSON.parse (dropBom (req.body.getD ""))

/-- The object `new Response(body, { status })`. -/
structure Response where
  body : Option String
  status : Nat

/-- The call `res.json()`: the body text, without a byte order mark, parsed
as JSON. -/
def Response.json (res : Response) : Except JsVal JsVal := JSON.parse (dropBom (res.body.getD ""))

/-- The second argument of `fetch`. -/
structure RequestInit where
  method : String
  headers : List (String × String)
  body : Option String

end Http

/-! ## src/app/api/sendEmail/route.js -/

namespace Route

open Js Http

/-- The argument of `resend.emails.send`: the properties `from`, `to`,
`subject` and `text` (the first two are reserved words here, hence the
underscore). `from` and `subject` are string literals of the source. -/
structure Message where
  from_ : String
  to_ : JsVal
  subject : String
  text : JsString

/-- The object `new Resend(key)`: its `emails.send`, which resolves to the
provider's answer or throws. -/
structure ResendClient where
  send : Message → Except JsVal JsVal

/-- What the handler takes from its surroundings: the environment variable
`process.env.RESEND_KEY` (a string, or `undefined` when unset) and the
constructor `Resend` of the provider SDK, which may throw. -/
structure Env where
  RESEND_KEY : JsVal
  Resend : JsVal → Except JsVal ResendClient

/-- What the handler does to its surroundings: the messages given to
`resend.emails.send`, oldest first, and the argument lists of
`console.error`. -/
structure Server where
  sent : List Message
  console : List (List JsVal)

/-- Line 6, `const { name, email, message } = body`: throws a `TypeError`
when `body` is `null` or `undefined`, reads the three properties in turn
otherwise. -/
def destructure (body : JsVal) : Except JsVal (JsVal × JsVal × JsVal) :=
  match body.getProp (utf16 "name") with
  | .error e => .error e
  | .ok name =>
    match body.getProp (utf16 "email") with
    | .error e => .error e
    | .ok email =>
      match body.getProp (utf16 "message") with
      | .error e => .error e
      | .ok message => .ok (name, email, message)

/-- Line 13, the template literal, on the strings of `name` and `message`. -/
def emailText (name message : JsString) : JsString :=
  utf16 "Hi " ++ name
    ++ utf16 ",\n\nThank you for contacting us. We received your message:\n\n\"" ++ message
    ++ utf16 "\"\n\nWe will get back to you soon.\n\n- Muhammad Abdullah"

/-- Lines 9 to 14, the object literal given to `send`; the template literal
applies ToString to `name`, then to `message`. -/
def mkMessage (name email message : JsVal) : Except JsVal Message :=
  match name.toStr with
  | .error e => .error e
  | .ok n =>
    match message.toStr with
    | .error e => .error e
    | .ok m =>
      .ok { from_ := "Muhammad Abdullah <onboarding@resend.dev>"
            to_ := email
            subject := "✅ We received your message"
            text := emailText n m }

/-- Lines 23 to 29, the `catch` block: log the error, then answer 500 with
the error serialized. The `JSON.stringify` of lines 25 to 28 stands outside
the `try`: when it throws, the handler rejects with what it throws. -/
def POST.catch (error : JsVal) (w : Server) : Except JsVal Response × Server :=
  match JSON.stringify (.obj [(utf16 "success", .bool false), (utf16 "error", error)]) with
  | .ok body =>
    (.ok { body := body, status := 500 },
     { w with console := w.console ++ [[.str (utf16 "Error sending email:"), error]] })
  | .error thrown =>
    (.error thrown,
     { w with console := w.console ++ [[.str (utf16 "Error sending email:"), error]] })

/-- Lines 3 to 30, `export async function POST(req)`: the response it
resolves to, or the value it rejects with. The `JSON.stringify` of lines 16
to 22 stands inside the `try`: when it throws, the `catch` block runs. -/
def POST (env : Env) (req : Request) (w : Server) : Except JsVal Response × Server :=
  match req.json with
  | .error error => POST.catch error w
  | .ok body =>
    match destructure body with
    | .error error => POST.catch error w
    | .ok (name, email, message) =>
      match env.Resend env.RESEND_KEY with
      | .error error => POST.catch error w
      | .ok resend =>
        match mkMessage name email message with
        | .error error => POST.catch error w
        | .ok msg =>
          let w1 : Server := { w with sent := w.sent ++ [msg] }
          match resend.send msg with
          | .error error => POST.catch error w1
          | .ok userMail =>
            match JSON.stringify
                (.obj [(utf16 "success", .bool true), (utf16 "userMail", userMail)]) with
            | .error error => POST.catch error w1
            | .ok text => (.ok { body := text, status := 200 }, w1)

end Route

/-! ## src/app/components/Contact.jsx -/

namespace Contact

open Js Http

/-- The form: a mapping from field names to strings. Line 6 starts it with
three empty strings and line 11 only ever stores `e.target.value`, a string. -/
abbrev Form := List (JsString × JsString)

/-- The form as an object. -/
def Form.toObj (form : Form) : Obj := form.map fun p => (p.1, JsVal.str p.2)

/-- The read `form[k]`. -/
def Form.get (form : Form) (k : JsString) : JsVal := Obj.get (Form.toObj form) k

/-- The three pieces of state of `ContactPage` (lines 6 to 8). -/
structure ContactPage where
  form : Form
  status : String
  loading : Bool

/-- A form of three strings. -/
def mkForm (name email message : JsString) : Form :=
  [(utf16 "name", name), (utf16 "email", email), (utf16 "message", message)]

/-- The initial state (lines 6 to 8). -/
def ContactPage.init : ContactPage :=
  { form := mkForm (utf16 "") (utf16 "") (utf16 ""), status := "", loading := false }

/-- What `handleChange` reads of its event: `e.target.name`, `e.target.value`. -/
structure ChangeEvent where
  name : JsString
  value : JsString

/-- Lines 10 to 12, `handleChange`: `setForm({ ...form, [name]: value })`. -/
def handleChange (st : ContactPage) (e : ChangeEvent) : ContactPage :=
  { st with form := Obj.set st.form e.name e.value }

/-- The browser's `fetch`: resolves to a response or rejects. -/
abbrev Network := String → RequestInit → Except JsVal Response

/-- The effects of `handleSubmit`, in the order it performs them. -/
inductive Effect where
  | preventDefault
  | setStatus (s : String)
  | setLoading (b : Bool)
  | setForm (f : Form)
  | fetch (url : String) (init : RequestInit)

/-- The state after one effect. -/
def ContactPage.apply (st : ContactPage) : Effect → ContactPage
  | .preventDefault => st
  | .setStatus s => { st with status := s }
  | .setLoading b => { st with loading := b }
  | .setForm f => { st with form := f }
  | .fetch _ _ => st

/-- The state after a sequence of effects. -/
def ContactPage.run (st : ContactPage) (effects : List Effect) : ContactPage :=
  effects.foldl ContactPage.apply st

/-- Lines 20 to 24, the arguments of `fetch`. A form holds strings only,
which `JSON.stringify` writes without throwing, so the second case of the
body does not arise. -/
def submitInit (form : Form) : RequestInit :=
  { method := "POST", headers := [("Content-Type", "application/json")],
    body :=
      match JSON.stringify (.obj (Form.toObj form)) with
      | .ok text => text
      | .error _ => none }

/-- Lines 20 to 33, the `try` block after the call of `fetch`: the state
updates it makes, or the error it throws. -/
def handleSubmit.tryBlock (fetched : Except JsVal Response) : Except JsVal (List Effect) :=
  match fetched with
  | .error error => .error error
  | .ok res =>
    match res.json with
    | .error error => .error error
    | .ok data =>
      match data.getProp (utf16 "success") with
      | .error error => .error error
      | .ok success =>
        if success.truthy then
          .ok [.setStatus "✅ Email sent successfully!",
               .setForm (mkForm (utf16 "") (utf16 "") (utf16 ""))]
        else .ok [.setStatus "❌ Failed to send email."]

/-- Lines 14 to 39, `handleSubmit`, as the sequence of its effects. -/
def handleSubmit (net : Network) (st : ContactPage) : List Effect :=
  let init := submitInit st.form
  [.preventDefault, .setStatus "", .setLoading true, .fetch "/api/sendEmail" init]
    ++ (match handleSubmit.tryBlock (net "/api/sendEmail" init) with
        | .ok effects => effects
        | .error _ => [.setStatus "❌ Error sending email."])
    ++ [.setLoading false]

/-- The endpoint behind `fetch`: the framework routes a `POST` of
`/api/sendEmail` to the handler of `app/api/sendEmail/route.js`, and answers
itself, with `crash`, when the handler rejects. -/
def relay (env : Route.Env) (w : Route.Server) (crash : Response) : Network := fun url init =>
  if url = "/api/sendEmail" then
    if init.method = "POST" then
      match (Route.POST env { body := init.body } w).1 with
      | .ok res => .ok res
      | .error _ => .ok crash
    else .ok { body := none, status := 405 }
  else .ok { body := none, status := 404 }

end Contact

/-! ## Sample inputs -/

namespace Samples

open Js Http Route Contact

/-- A network whose answer is 200 with a body declaring success. -/
def okNet : Network := fun _ _ => .ok { body := some "\x7b\"success\":true\x7d", status := 200 }

/-- A network that is down: `fetch` rejects. -/
def downNet : Network := fun _ _ => .error (typeError "Failed to fetch")

/-- A form the user has filled in. -/
def anaPage : ContactPage :=
  { form := mkForm (utf16 "Ana") (utf16 "ana@x.com") (utf16 "Hi"), status := "",
    loading := false }

/-- The request the form of `anaPage` is sent as. -/
def anaRequest : Request :=
  { body := some "\x7b\"name\":\"Ana\",\"email\":\"ana@x.com\",\"message\":\"Hi\"\x7d" }

/-- The body of `anaRequest`, parsed. -/
def anaBody : JsVal :=
  .obj [(utf16 "name", .str (utf16 "Ana")), (utf16 "email", .str (utf16 "ana@x.com")),
    (utf16 "message", .str (utf16 "Hi"))]

/-- The message the endpoint builds for `anaRequest`. -/
def anaMessage : Message :=
  { from_ := "Muhammad Abdullah <onboarding@resend.dev>"
    to_ := .str (utf16 "ana@x.com")
    subject := "✅ We received your message"
    text := utf16 "Hi Ana,\n\nThank you for contacting us. We received your message:\n\n\"Hi\"\n\nWe will get back to you soon.\n\n- Muhammad Abdullah" }

/-- A provider client that accepts every message. -/
def acceptingClient : ResendClient :=
  { send := fun _ =>
      .ok (.obj [(utf16 "data", .obj [(utf16 "id", .str (utf16 "re_1"))]),
        (utf16 "error", .null)]) }

/-- A provider client whose `send` throws an `Error`. -/
def throwingClient : ResendClient :=
  { send := fun _ => .error (.error (utf16 "Error") (utf16 "fetch failed")) }

/-- A provider client whose `send` throws an object that holds a BigInt. -/
def bigintThrowingClient : ResendClient :=
  { send := fun _ => .error (.obj [(utf16 "code", .bigint 1)]) }

/-- A provider client whose `send` returns an object that holds a BigInt. -/
def bigintClient : ResendClient :=
  { send := fun _ => .ok (.obj [(utf16 "data", .obj [(utf16 "id", .bigint 1)])]) }

/-- A provider constructor in the manner of the `resend` package, which
throws an `Error` (missing API key) when it is given no key. -/
def sdk (client : ResendClient) (key : JsVal) : Except JsVal ResendClient :=
  if key.truthy then .ok client else .error (.error (utf16 "Error") (utf16 "Missing API key"))

/-- A deployment with the key set and a provider that accepts. -/
def goodEnv : Env := { RESEND_KEY := .str (utf16 "re_123"), Resend := sdk acceptingClient }

/-- A deployment with the key set and a provider whose `send` throws. -/
def failingEnv : Env := { RESEND_KEY := .str (utf16 "re_123"), Resend := sdk throwingClient }

/-- A deployment whose provider throws an object that holds a BigInt. -/
def bigintThrowingEnv : Env :=
  { RESEND_KEY := .str (utf16 "re_123"), Resend := sdk bigintThrowingClient }

/-- A deployment whose provider returns an object that holds a BigInt. -/
def bigintEnv : Env := { RESEND_KEY := .str (utf16 "re_123"), Resend := sdk bigintClient }

/-- A deployment in which the environment variable is unset. -/
def noKeyEnv : Env := { RESEND_KEY := .undefined, Resend := sdk acceptingClient }

/-- A server that has done nothing yet. -/
def freshServer : Server := { sent := [], console := [] }

/-- The answer of the framework to a handler that rejects. -/
def crashResponse : Response := { body := some "Internal Server Error", status := 500 }

end Samples

/-! # Properties -/

/-! ## Objects: reading after writing -/

namespace Js

theorem Obj.get_set_same (o : Obj) (k : JsString) (v : JsVal) :
    Obj.get (Obj.set o k v) k = v := by
  induction o with
  | nil => simp [Obj.set, Obj.get]
  | cons p ps ih =>
    obtain ⟨k', v'⟩ := p
    simp only [Obj.set]
    split_ifs with h1 h2
    · simp [Obj.get, h1]
    · simp [Obj.get]
    · simp [Obj.get, h1, ih]

theorem Obj.get_set_other (o : Obj) (k g : JsString) (v : JsVal) (h : g ≠ k) :
    Obj.get (Obj.set o k v) g = Obj.get o g := by
  induction o with
  | nil => simp [Obj.set, Obj.get, Ne.symm h]
  | cons p ps ih =>
    obtain ⟨k', v'⟩ := p
    simp only [Obj.set]
    split_ifs with h1 h2
    · subst h1
      simp [Obj.get, Ne.symm h]
    · simp [Obj.get, Ne.symm h]
    · by_cases h3 : k' = g
      · simp [Obj.get, h3]
      · simp [Obj.get, h3, ih]

theorem Obj.keys_set_mem {α : Type} (o : List (JsString × α)) (k : JsString) (v : α)
    (h : k ∈ Obj.keys o) : Obj.keys (Obj.set o k v) = Obj.keys o := by
  induction o with
  | nil => simp [Obj.keys] at h
  | cons p ps ih =>
    obtain ⟨k', v'⟩ := p
    simp only [Obj.set]
    by_cases h1 : k' = k
    · simp [Obj.keys, h1]
    · have hmem : k ∈ Obj.keys ps := by
        simp only [Obj.keys, List.map_cons, List.mem_cons] at h
        rcases h with h | h
        · exact absurd h.symm h1
        · exact h
      have hc : (Obj.keys ps).contains k = true := by simpa using hmem
      have ih' := ih hmem
      have hno : (goesBefore k k' && !(Obj.keys ps).contains k) = false := by
        rw [hc]
        simp
      simp only [h1, if_false, hno, Bool.false_eq_true]
      simp only [Obj.keys] at ih' ⊢
      simp [ih']

theorem goesBefore_none (k k' : JsString) (h : arrayIndex k = none) :
    goesBefore k k' = false := by
  simp [goesBefore, h]

theorem Obj.set_of_not_mem (o : Obj) (k : JsString) (v : JsVal) (h : k ∉ Obj.keys o)
    (hk : arrayIndex k = none) : Obj.set o k v = o ++ [(k, v)] := by
  induction o with
  | nil => rfl
  | cons p ps ih =>
    obtain ⟨k', v'⟩ := p
    simp only [Obj.keys, List.map_cons, List.mem_cons, not_or] at h
    have h1 : k' ≠ k := fun heq => h.1 heq.symm
    have ih' := ih (by simpa [Obj.keys] using h.2)
    simp [Obj.set, h1, ih', goesBefore_none k k' hk]

theorem Obj.foldl_set_nodup (ps : Obj) (hidx : ∀ k ∈ Obj.keys ps, arrayIndex k = none) :
    ∀ acc : Obj, (Obj.keys (acc ++ ps)).Nodup →
    ps.foldl (fun a p => Obj.set a p.1 p.2) acc = acc ++ ps := by
  induction ps with
  | nil => intro acc _; simp
  | cons p ps ih =>
    intro acc h
    obtain ⟨k, v⟩ := p
    have hk : k ∉ Obj.keys acc := by
      simp only [Obj.keys, List.map_append, List.map_cons] at h
      have := (List.nodup_append.1 h).2.2
      intro hmem
      exact this hmem (List.mem_cons_self _ _)
    have h' : (Obj.keys ((acc ++ [(k, v)]) ++ ps)).Nodup := by
      simpa [Obj.keys] using h
    have hkidx : arrayIndex k = none := hidx k (by simp [Obj.keys])
    have hidx' : ∀ k ∈ Obj.keys ps, arrayIndex k = none := by
      intro k' hk'
      exact hidx k' (by simp only [Obj.keys, List.map_cons, List.mem_cons]; exact Or.inr hk')
    simp only [List.foldl_cons]
    rw [Obj.set_of_not_mem acc k v hk hkidx, ih hidx' _ h']
    simp

theorem Obj.get_of_mem (ps : Obj) (k : JsString) (v : JsVal) (hmem : (k, v) ∈ ps)
    (hnd : (Obj.keys ps).Nodup) : Obj.get ps k = v := by
  induction ps with
  | nil => simp at hmem
  | cons p ps ih =>
    obtain ⟨k', v'⟩ := p
    simp only [Obj.keys, List.map_cons, List.nodup_cons] at hnd
    simp only [List.mem_cons, Prod.mk.injEq] at hmem
    rcases hmem with ⟨hk, hv⟩ | hmem
    · subst hk hv
      simp [Obj.get]
    · have hne : k' ≠ k := by
        intro heq
        subst heq
        exact hnd.1 (List.mem_map.2 ⟨(k', v), hmem, rfl⟩)
      simp only [Obj.get, hne, if_false]
      exact ih hmem (by simpa [Obj.keys] using hnd.2)

/-- The properties of an object of strings come back as they are. -/
theorem jsonImageProps_strings (ps : Obj) (h : ∀ p ∈ ps, ∃ s, p.2 = JsVal.str s) :
    jsonImageProps ps = ps := by
  induction ps with
  | nil => rfl
  | cons p ps ih =>
    obtain ⟨k, v⟩ := p
    obtain ⟨s, hs⟩ := h (k, v) (List.mem_cons_self _ _)
    simp only at hs
    subst hs
    have ih' := ih (fun q hq => h q (List.mem_cons_of_mem _ hq))
    simp [jsonImageProps, serialize, jsonImage, ih']

/-- An object of strings with distinct keys, none an array index, is its own
image. -/
theorem jsonImage_strings (ps : Obj) (h : ∀ p ∈ ps, ∃ s, p.2 = JsVal.str s)
    (hnd : (Obj.keys ps).Nodup) (hidx : ∀ k ∈ Obj.keys ps, arrayIndex k = none) :
    jsonImage (.obj ps) = .obj ps := by
  have h1 := jsonImageProps_strings ps h
  have h2 := Obj.foldl_set_nodup ps hidx [] (by simpa using hnd)
  simp only [jsonImage, h1, h2, List.nil_append]

/-- An object of strings holds no BigInt. -/
theorem holdsBigIntProps_strings (ps : Obj) (h : ∀ p ∈ ps, ∃ s, p.2 = JsVal.str s) :
    holdsBigIntProps ps = false := by
  induction ps with
  | nil => rfl
  | cons p ps ih =>
    obtain ⟨k, v⟩ := p
    obtain ⟨s, hs⟩ := h (k, v) (List.mem_cons_self _ _)
    simp only at hs
    subst hs
    have ih' := ih (fun q hq => h q (List.mem_cons_of_mem _ hq))
    simp [holdsBigIntProps, holdsBigInt, ih']

/-- `JSON.stringify` returns a text for an object, unless it throws. -/
theorem JSON.stringify_obj (ps : Obj) (text : Option String)
    (h : JSON.stringify (.obj ps) = .ok text) :
    ∃ s, text = some s ∧ dropBom s = s := by
  unfold JSON.stringify at h
  split_ifs at h with hb
  simp only [serialize, Option.map_some', Except.ok.injEq] at h
  subst h
  exact ⟨_, rfl, by simp [dropBom]⟩

/-- `JSON.stringify` writes an object of strings. -/
theorem JSON.stringify_strings (ps : Obj) (h : ∀ p ∈ ps, ∃ s, p.2 = JsVal.str s) :
    ∃ s, JSON.stringify (.obj ps) = .ok (some s) := by
  have hb := holdsBigIntProps_strings ps h
  simp [JSON.stringify, holdsBigInt, hb, serialize]

/-- An `Error` instance holds no BigInt: the `catch` block can write the
`TypeError` that `JSON.stringify` throws. -/
theorem JSON.stringify_thrown (v : JsVal) (thrown : JsVal) (h : JSON.stringify v = .error thrown) :
    holdsBigInt thrown = false := by
  unfold JSON.stringify at h
  split_ifs at h with hb
  simp only [Except.error.injEq] at h
  subst h
  rfl

end Js

/-! ## JSON: what is written is read back -/

namespace Js

theorem Char.toNat_ofNat_valid (n : Nat) (h : n < 0xD800 ∨ (0xDFFF < n ∧ n < 0x110000)) :
    (Char.ofNat n).toNat = n := by
  have hv : n.isValidChar := h
  unfold Char.ofNat
  rw [dif_pos hv]
  rfl

theorem finOfNat_val (u : CodeUnit) : (Fin.ofNat u.val : CodeUnit) = u := by
  apply Fin.ext
  simp [Fin.ofNat, Nat.mod_eq_of_lt u.isLt]

theorem finOfNat_eq (n : Nat) (u : CodeUnit) (h : n = u.val) : (Fin.ofNat n : CodeUnit) = u := by
  subst h
  exact finOfNat_val u

theorem skipWs_cons (c : Char) (r : List Char) (h : isWs c = false) : skipWs (c :: r) = c :: r := by
  simp [skipWs, h]

theorem hexVal_hexDigit : ∀ n, n < 16 → hexVal (hexDigit n) = some n := by
  decide

theorem scanString_unicodeEscape (u : CodeUnit) (tl : List Char) :
    scanString .plain (unicodeEscape u.val ++ tl) = consUnits [u] (scanString .plain tl) := by
  have hu := u.isLt
  have h1 : u.val / 4096 < 16 := by omega
  have h2 : u.val / 256 % 16 < 16 := by omega
  have h3 : u.val / 16 % 16 < 16 := by omega
  have h4 : u.val % 16 < 16 := by omega
  have hv : ((u.val / 4096 * 16 + u.val / 256 % 16) * 16 + u.val / 16 % 16) * 16 + u.val % 16
      = u.val := by omega
  simp [unicodeEscape, scanString, hexVal_hexDigit _ h1, hexVal_hexDigit _ h2,
    hexVal_hexDigit _ h3, hexVal_hexDigit _ h4, hv, finOfNat_val]

theorem scanString_literal (c : Char) (tl : List Char) (h1 : c.toNat ≠ 92) (h2 : c.toNat ≠ 34)
    (h3 : ¬ c.toNat < 32) :
    scanString .plain (c :: tl) = consUnits (charUnits c) (scanString .plain tl) := by
  have e1 : c ≠ '\\' := by
    intro h
    subst h
    exact h1 rfl
  have e2 : c ≠ '"' := by
    intro h
    subst h
    exact h2 rfl
  simp [scanString, e1, e2, h3]

theorem scanString_quoteUnit (u : CodeUnit) (tl : List Char) :
    scanString .plain (quoteUnit u ++ tl) = consUnits [u] (scanString .plain tl) := by
  have hu := u.isLt
  unfold quoteUnit
  split_ifs with h1 h2 h3 h4 h5 h6 h7 h8 h9
  · have : u = 34 := Fin.ext h1
    subst this
    simp [scanString, unescape]
  · have : u = 92 := Fin.ext h2
    subst this
    simp [scanString, unescape]
  · have : u = 8 := Fin.ext h3
    subst this
    simp [scanString, unescape]
  · have : u = 12 := Fin.ext h4
    subst this
    simp [scanString, unescape]
  · have : u = 10 := Fin.ext h5
    subst this
    simp [scanString, unescape]
  · have : u = 13 := Fin.ext h6
    subst this
    simp [scanString, unescape]
  · have : u = 9 := Fin.ext h7
    subst this
    simp [scanString, unescape]
  · exact scanString_unicodeEscape u tl
  · exact scanString_unicodeEscape u tl
  · have hc : (Char.ofNat u.val).toNat = u.val := Char.toNat_ofNat_valid _ (by omega)
    have := scanString_literal (Char.ofNat u.val) tl (by omega) (by omega) (by omega)
    simp only [List.singleton_append]
    rw [this]
    have hcu : charUnits (Char.ofNat u.val) = [u] := by
      simp [charUnits, hc, hu, finOfNat_val]
    rw [hcu]

theorem scanString_pair (u v : CodeUnit) (tl : List Char) (h : isPair u v = true) :
    scanString .plain (pairChar u v :: tl) = consUnits [u, v] (scanString .plain tl) := by
  simp only [isPair, Bool.and_eq_true, decide_eq_true_eq] at h
  obtain ⟨⟨⟨h1, h2⟩, h3⟩, h4⟩ := h
  have hc : (pairChar u v).toNat = 0x10000 + (u.val - 0xD800) * 0x400 + (v.val - 0xDC00) :=
    Char.toNat_ofNat_valid _ (by omega)
  have := scanString_literal (pairChar u v) tl (by omega) (by omega) (by omega)
  rw [this]
  have hcu : charUnits (pairChar u v) = [u, v] := by
    have hge : ¬ (pairChar u v).toNat < 0x10000 := by omega
    simp only [charUnits, hge, if_false]
    have e1 : 0xD800 + ((pairChar u v).toNat - 0x10000) / 0x400 = u.val := by omega
    have e2 : 0xDC00 + ((pairChar u v).toNat - 0x10000) % 0x400 = v.val := by omega
    rw [finOfNat_eq _ u e1, finOfNat_eq _ v e2]
  rw [hcu]

theorem consUnits_consUnits (a b : List CodeUnit) (r : Option (JsString × List Char)) :
    consUnits a (consUnits b r) = consUnits (a ++ b) r := by
  cases r with
  | none => rfl
  | some p => simp [consUnits]

theorem scanString_quoteBody (n : Nat) : ∀ (s : JsString) (rest : List Char), s.length ≤ n →
    scanString .plain (quoteBody s ++ '"' :: rest) = some (s, rest) := by
  induction n with
  | zero =>
    intro s rest hs
    have : s = [] := List.length_eq_zero.1 (by omega)
    subst this
    simp [quoteBody, scanString]
  | succ n ih =>
    intro s rest hs
    match s, hs with
    | [], _ => simp [quoteBody, scanString]
    | [u], _ =>
      simp only [quoteBody]
      have h0 := ih [] rest (by simp)
      simp only [quoteBody, List.nil_append] at h0
      rw [scanString_quoteUnit, h0]
      rfl
    | u :: v :: s', hs =>
      simp only [quoteBody]
      by_cases hp : isPair u v = true
      · simp only [hp, if_true, List.cons_append]
        rw [scanString_pair u v _ hp, ih s' rest (by simp at hs; omega)]
        rfl
      · simp only [hp]
        rw [if_neg (by simp), List.append_assoc, scanString_quoteUnit,
          ih (v :: s') rest (by simp at hs ⊢; omega)]
        rfl

theorem parseStringBody_quoteBody (s : JsString) (rest : List Char) :
    parseStringBody (quoteBody s ++ '"' :: rest) = some (s, rest) :=
  scanString_quoteBody s.length s rest (Nat.le_refl _)

theorem isDigit_digitChar (d : Nat) (h : d < 10) : isDigit (digitChar d) = true := by
  revert d
  decide

theorem digitChar_ne_zero (d : Nat) (h : d < 10) (h0 : 0 < d) : digitChar d ≠ '0' := by
  revert d
  decide

theorem digitChar_ne_minus (d : Nat) (h : d < 10) : digitChar d ≠ '-' := by
  revert d
  decide

theorem natDigitsAux_eq (n : Nat) : ∀ fuel acc, n < fuel →
    natDigitsAux fuel n acc = natDigits n ++ acc := by
  induction n using Nat.strong_induction_on with
  | _ n ih =>
    intro fuel acc hf
    obtain ⟨f, rfl⟩ : ∃ f, fuel = f + 1 := ⟨fuel - 1, by omega⟩
    unfold natDigits
    by_cases h : n / 10 = 0
    · simp [natDigitsAux, h]
    · have hlt : n / 10 < n := by omega
      simp only [natDigitsAux, h, if_false]
      rw [ih (n / 10) hlt f _ (by omega), ih (n / 10) hlt n _ hlt]
      simp

theorem natDigits_small (n : Nat) (h : n < 10) : natDigits n = [digitChar n] := by
  have h0 : n / 10 = 0 := by omega
  have h1 : n % 10 = n := by omega
  simp [natDigits, natDigitsAux, h0, h1]

theorem natDigits_step (n : Nat) (h : 10 ≤ n) :
    natDigits n = natDigits (n / 10) ++ [digitChar (n % 10)] := by
  have h0 : n / 10 ≠ 0 := by omega
  have hlt : n / 10 < n := by omega
  conv_lhs => unfold natDigits
  simp only [natDigitsAux, h0, if_false]
  exact natDigitsAux_eq (n / 10) n _ hlt

theorem natDigits_head (n : Nat) (h : 0 < n) :
    ∃ d cs, 0 < d ∧ d < 10 ∧ natDigits n = digitChar d :: cs := by
  induction n using Nat.strong_induction_on with
  | _ n ih =>
    by_cases hs : n < 10
    · exact ⟨n, [], h, hs, natDigits_small n hs⟩
    · obtain ⟨d, cs, hd0, hd, hcs⟩ := ih (n / 10) (by omega) (by omega)
      refine ⟨d, cs ++ [digitChar (n % 10)], hd0, hd, ?_⟩
      rw [natDigits_step n (by omega), hcs]
      rfl

theorem natDigits_digits (n : Nat) : ∀ c ∈ natDigits n, isDigit c = true := by
  induction n using Nat.strong_induction_on with
  | _ n ih =>
    intro c hc
    by_cases hs : n < 10
    · rw [natDigits_small n hs] at hc
      simp only [List.mem_singleton] at hc
      subst hc
      exact isDigit_digitChar n hs
    · rw [natDigits_step n (by omega)] at hc
      simp only [List.mem_append, List.mem_singleton] at hc
      rcases hc with hc | hc
      · exact ih (n / 10) (by omega) c hc
      · subst hc
        exact isDigit_digitChar _ (by omega)

theorem natDigits_ne_nil (n : Nat) : natDigits n ≠ [] := by
  by_cases h : n = 0
  · subst h
    decide
  · obtain ⟨d, cs, _, _, hcs⟩ := natDigits_head n (by omega)
    simp [hcs]

theorem natDigits_cons (n : Nat) :
    ∃ d cs, natDigits n = d :: cs ∧ isDigit d = true ∧ (0 < n → d ≠ '0') := by
  cases h : natDigits n with
  | nil => exact absurd h (natDigits_ne_nil n)
  | cons d cs =>
    refine ⟨d, cs, rfl, natDigits_digits n d (by simp [h]), fun hn => ?_⟩
    obtain ⟨d0, cs0, h0, h10, hcs⟩ := natDigits_head n hn
    rw [hcs] at h
    cases h
    exact digitChar_ne_zero d0 h10 h0

/-- What a number may end before: no digit, point or exponent mark. -/
theorem endsNumber_cases (rest : List Char) (h : endsNumber rest = true) :
    rest = [] ∨ ∃ c r, rest = c :: r ∧ isDigit c = false ∧ c ≠ '.' ∧ c ≠ 'e' ∧ c ≠ 'E' := by
  cases rest with
  | nil => exact Or.inl rfl
  | cons c r =>
    simp only [endsNumber, Bool.not_eq_true', Bool.or_eq_false_iff, beq_eq_false_iff_ne,
      ne_eq] at h
    exact Or.inr ⟨c, r, rfl, h.1.1.1, h.1.1.2, h.1.2, h.2⟩

theorem spanDigits_append (ds rest : List Char) (hds : ∀ c ∈ ds, isDigit c = true)
    (hrest : rest = [] ∨ ∃ c r, rest = c :: r ∧ isDigit c = false) :
    spanDigits (ds ++ rest) = (ds, rest) := by
  induction ds with
  | nil =>
    rcases hrest with h | ⟨c, r, h, hc⟩
    · subst h
      rfl
    · subst h
      simp [spanDigits, hc]
  | cons d ds ih =>
    have hd := hds d (List.mem_cons_self _ _)
    have ih' := ih (fun c hc => hds c (List.mem_cons_of_mem _ hc))
    simp [spanDigits, hd, ih']

theorem lexInt_zero (rest : List Char) : lexInt ('0' :: rest) = some (['0'], rest) := by
  simp [lexInt]

theorem lexInt_digits (d : Char) (ds rest : List Char) (hd : isDigit d = true) (hd0 : d ≠ '0')
    (hds : ∀ c ∈ ds, isDigit c = true)
    (hrest : rest = [] ∨ ∃ c r, rest = c :: r ∧ isDigit c = false) :
    lexInt (d :: (ds ++ rest)) = some (d :: ds, rest) := by
  simp [lexInt, hd, hd0, spanDigits_append ds rest hds hrest]

theorem lexFrac_none (rest : List Char) (h : rest = [] ∨ ∃ c r, rest = c :: r ∧ c ≠ '.') :
    lexFrac rest = some ([], rest) := by
  rcases h with h | ⟨c, r, h, hc⟩
  · subst h
    rfl
  · subst h
    simp [lexFrac, hc]

theorem lexFrac_digits (ds rest : List Char) (hne : ds ≠ [])
    (hds : ∀ c ∈ ds, isDigit c = true)
    (hrest : rest = [] ∨ ∃ c r, rest = c :: r ∧ isDigit c = false) :
    lexFrac ('.' :: (ds ++ rest)) = some (ds, rest) := by
  have he : ds.isEmpty = false := by
    cases ds with
    | nil => exact absurd rfl hne
    | cons _ _ => rfl
  simp [lexFrac, spanDigits_append ds rest hds hrest, he]

theorem lexExp_none (rest : List Char)
    (h : rest = [] ∨ ∃ c r, rest = c :: r ∧ c ≠ 'e' ∧ c ≠ 'E') :
    lexExp rest = some (0, rest) := by
  rcases h with h | ⟨c, r, h, hc1, hc2⟩
  · subst h
    rfl
  · subst h
    simp [lexExp, hc1, hc2]

theorem lexExp_signed (plus : Bool) (ds rest : List Char) (hne : ds ≠ [])
    (hds : ∀ c ∈ ds, isDigit c = true)
    (hrest : rest = [] ∨ ∃ c r, rest = c :: r ∧ isDigit c = false) :
    lexExp ('e' :: (if plus then '+' else '-') :: (ds ++ rest))
      = some (if plus then (digitsValue ds : Int) else -(digitsValue ds : Int), rest) := by
  have he : ds.isEmpty = false := by
    cases ds with
    | nil => exact absurd rfl hne
    | cons _ _ => rfl
  cases plus <;>
    simp [lexExp, lexExpDigits, spanDigits_append ds rest hds hrest, he]

theorem endsNumber_digit (rest : List Char) (h : endsNumber rest = true) :
    rest = [] ∨ ∃ c r, rest = c :: r ∧ isDigit c = false := by
  rcases endsNumber_cases rest h with h | ⟨c, r, h, hc, _⟩
  · exact Or.inl h
  · exact Or.inr ⟨c, r, h, hc⟩

theorem endsNumber_point (rest : List Char) (h : endsNumber rest = true) :
    rest = [] ∨ ∃ c r, rest = c :: r ∧ c ≠ '.' := by
  rcases endsNumber_cases rest h with h | ⟨c, r, h, _, hc, _⟩
  · exact Or.inl h
  · exact Or.inr ⟨c, r, h, hc⟩

theorem endsNumber_exp (rest : List Char) (h : endsNumber rest = true) :
    rest = [] ∨ ∃ c r, rest = c :: r ∧ c ≠ 'e' ∧ c ≠ 'E' := by
  rcases endsNumber_cases rest h with h | ⟨c, r, h, _, _, hc⟩
  · exact Or.inl h
  · exact Or.inr ⟨c, r, h, hc⟩

theorem replicate_zero_digits (j : Nat) : ∀ c ∈ List.replicate j '0', isDigit c = true := by
  intro c hc
  have := List.eq_of_mem_replicate hc
  subst this
  decide

/-- An exponent mark and what follows it read as an exponent. -/
theorem lexExp_print (n : Int) (rest : List Char) (h : endsNumber rest = true) :
    lexExp ('e' :: expSign (n - 1) :: (natDigits (n - 1).natAbs ++ rest))
      = some (if 0 ≤ n - 1 then (digitsValue (natDigits (n - 1).natAbs) : Int)
          else -(digitsValue (natDigits (n - 1).natAbs) : Int), rest) := by
  have key := lexExp_signed (decide (0 ≤ n - 1)) (natDigits (n - 1).natAbs) rest
    (natDigits_ne_nil _) (natDigits_digits _) (endsNumber_digit rest h)
  by_cases hn : 0 ≤ n - 1
  · simpa [expSign, hn] using key
  · simpa [expSign, hn] using key

/-- The text of Number::toString for positive digits reads as a JSON number
and nothing is left of it. -/
theorem parseUnsigned_printDigits (neg : Bool) (s : Nat) (hs : 0 < s) (n : Int) :
    ∃ y, ∀ rest, endsNumber rest = true →
      parseUnsigned neg (printDigits s n ++ rest) = some (y, rest) := by
  obtain ⟨d, ds, hD, hd, hd0⟩ := natDigits_cons s
  have hd0 := hd0 hs
  have hall := natDigits_digits s
  have hds : ∀ c ∈ ds, isDigit c = true := by
    intro c hc
    exact hall c (by rw [hD]; exact List.mem_cons_of_mem _ hc)
  have hlen : (natDigits s).length = ds.length + 1 := by rw [hD]; rfl
  have hpoint : ∀ (tl : List Char), ∃ c r, '.' :: tl = c :: r ∧ isDigit c = false :=
    fun tl => ⟨'.', tl, rfl, by decide⟩
  have hmark : ∀ (tl : List Char), ∃ c r, 'e' :: tl = c :: r ∧ isDigit c = false :=
    fun tl => ⟨'e', tl, rfl, by decide⟩
  unfold printDigits
  split_ifs with h1 h2 h3
  · -- digits and zeros
    refine ⟨Number.ofDecimal neg (digitsValue ((d :: (ds
      ++ List.replicate (n.toNat - (natDigits s).length) '0')) ++ [])) (0 - (0 : Nat)),
      fun rest hr => ?_⟩
    have hz := replicate_zero_digits (n.toNat - (natDigits s).length)
    have hI := lexInt_digits d (ds ++ List.replicate (n.toNat - (natDigits s).length) '0') rest
      hd hd0 (by
        intro c hc
        rcases List.mem_append.1 hc with hc | hc
        · exact hds c hc
        · exact hz c hc) (endsNumber_digit rest hr)
    rw [hD]
    rw [hD] at hI
    simp only [List.cons_append, List.append_assoc] at hI ⊢
    simp only [parseUnsigned, hI, lexFrac_none rest (endsNumber_point rest hr),
      lexExp_none rest (endsNumber_exp rest hr)]
    simp
  · -- digits, point, digits
    have hn : 0 < n.toNat := by omega
    have hnk : n.toNat < ds.length + 1 := by omega
    obtain ⟨j, hj⟩ : ∃ j, n.toNat = j + 1 := ⟨n.toNat - 1, by omega⟩
    have htake : (d :: ds).take n.toNat = d :: ds.take j := by rw [hj]; rfl
    have hdrop : (d :: ds).drop n.toNat = ds.drop j := by rw [hj]; rfl
    have hdne : ds.drop j ≠ [] := by
      intro h
      have := congrArg List.length h
      simp at this
      omega
    refine ⟨Number.ofDecimal neg (digitsValue ((d :: ds.take j) ++ ds.drop j))
      (0 - ((ds.drop j).length : Nat)), fun rest hr => ?_⟩
    have hI := lexInt_digits d (ds.take j) ('.' :: (ds.drop j ++ rest)) hd hd0
      (fun c hc => hds c (List.mem_of_mem_take hc)) (Or.inr (hpoint _))
    have hF := lexFrac_digits (ds.drop j) rest hdne
      (fun c hc => hds c (List.mem_of_mem_drop hc)) (endsNumber_digit rest hr)
    rw [hD, htake, hdrop]
    simp only [List.cons_append, List.append_assoc] at hI ⊢
    simp only [parseUnsigned, hI, hF, lexExp_none rest (endsNumber_exp rest hr)]
    simp
  · -- zero, point, zeros, digits
    refine ⟨Number.ofDecimal neg (digitsValue (['0'] ++ (List.replicate (-n).toNat '0'
      ++ natDigits s))) (0 - ((List.replicate (-n).toNat '0' ++ natDigits s).length : Nat)),
      fun rest hr => ?_⟩
    have hF := lexFrac_digits (List.replicate (-n).toNat '0' ++ natDigits s) rest
      (by simp [natDigits_ne_nil])
      (by
        intro c hc
        rcases List.mem_append.1 hc with hc | hc
        · exact replicate_zero_digits _ c hc
        · exact hall c hc) (endsNumber_digit rest hr)
    simp only [List.cons_append, List.append_assoc] at hF ⊢
    simp only [parseUnsigned, lexInt_zero, hF, lexExp_none rest (endsNumber_exp rest hr)]
    simp
  · -- digit, point, digits, exponent
    rw [hD]
    by_cases hempty : ds = []
    · subst hempty
      refine ⟨Number.ofDecimal neg (digitsValue ([d] ++ []))
        ((if 0 ≤ n - 1 then (digitsValue (natDigits (n - 1).natAbs) : Int)
          else -(digitsValue (natDigits (n - 1).natAbs) : Int)) - (0 : Nat)),
        fun rest hr => ?_⟩
      have hI := lexInt_digits d [] ('e' :: expSign (n - 1)
        :: (natDigits (n - 1).natAbs ++ rest)) hd hd0 (by simp) (Or.inr (hmark _))
      have hF := lexFrac_none ('e' :: expSign (n - 1)
        :: (natDigits (n - 1).natAbs ++ rest)) (Or.inr ⟨'e', _, rfl, by decide⟩)
      simp only [List.nil_append] at hI
      simp only [List.isEmpty_nil, if_true, List.cons_append, List.nil_append,
        List.append_assoc]
      simp only [parseUnsigned, hI, hF, lexExp_print n rest hr]
      simp
    · have he : ds.isEmpty = false := by
        cases ds with
        | nil => exact absurd rfl hempty
        | cons _ _ => rfl
      refine ⟨Number.ofDecimal neg (digitsValue ([d] ++ ds))
        ((if 0 ≤ n - 1 then (digitsValue (natDigits (n - 1).natAbs) : Int)
          else -(digitsValue (natDigits (n - 1).natAbs) : Int)) - (ds.length : Nat)),
        fun rest hr => ?_⟩
      have hI := lexInt_digits d [] ('.' :: (ds ++ 'e' :: expSign (n - 1)
        :: (natDigits (n - 1).natAbs ++ rest))) hd hd0 (by simp) (Or.inr (hpoint _))
      have hF := lexFrac_digits ds ('e' :: expSign (n - 1)
        :: (natDigits (n - 1).natAbs ++ rest)) hempty hds (Or.inr (hmark _))
      simp only [List.nil_append] at hI
      simp only [he, List.cons_append, List.append_assoc]
      simp only [Bool.false_eq_true, if_false, List.cons_append, List.append_assoc]
      simp only [parseUnsigned, hI, hF, lexExp_print n rest hr]
      simp

theorem normalizeAux_ne_zero (fuel : Nat) : ∀ (m : Nat) (e : Int), m ≠ 0 →
    (normalizeAux fuel m e).1 ≠ 0 := by
  induction fuel with
  | zero => intro m e h; simpa [normalizeAux] using h
  | succ f ih =>
    intro m e h
    by_cases h2 : m % 2 = 0
    · simp only [normalizeAux, h2, if_true]
      exact ih (m / 2) (e + 1) (by omega)
    · simpa [normalizeAux, h2] using h

theorem normal_ne_zero (m : Nat) (e : Int) (h : m ≠ 0) :
    Number.normal false m e ≠ .finite false 0 0 := by
  have := normalizeAux_ne_zero m m e h
  simp only [Number.normal, h, if_false]
  intro heq
  injection heq with _ h1 _
  exact this h1

theorem ofDecimal_zero (neg : Bool) (p : Int) : Number.ofDecimal neg 0 p = .finite neg 0 0 := by
  simp [Number.ofDecimal]

theorem nextDigits_pos (lo k : Nat) (n : Int) : 0 < (nextDigits lo k n).1 := by
  unfold nextDigits
  split_ifs
  · exact Nat.pow_pos (by decide)
  · exact Nat.succ_pos _

theorem roundsTo_pos (x : Number) (hx : x ≠ .finite false 0 0) (s : Nat) (n : Int) (k : Nat)
    (h : roundsTo x s n k = true) : 0 < s := by
  by_contra h0
  have h0' : s = 0 := by omega
  subst h0'
  simp only [roundsTo, ofDecimal_zero, decide_eq_true_eq] at h
  exact hx h.symm

theorem shortestAux_pos (x : Number) (num den : Nat) (n : Int) (hx : x ≠ .finite false 0 0)
    (fuel : Nat) : ∀ k, 0 < (shortestAux x num den n fuel k).1 := by
  induction fuel with
  | zero => intro k; exact nextDigits_pos _ _ _
  | succ f ih =>
    intro k
    simp only [shortestAux]
    split_ifs with h1 h2 h3 h4 h5 h6
    · exact roundsTo_pos x hx _ _ _ h1
    · exact nextDigits_pos _ _ _
    · exact roundsTo_pos x hx _ _ _ h1
    · exact nextDigits_pos _ _ _
    · exact roundsTo_pos x hx _ _ _ h1
    · exact nextDigits_pos _ _ _
    · exact ih (k + 1)

theorem shortest_pos (m : Nat) (e : Int) (h : m ≠ 0) : 0 < (shortest m e).1 := by
  unfold shortest
  exact shortestAux_pos _ _ _ _ (normal_ne_zero m e h) _ _

theorem printDigits_head (s : Nat) (n : Int) :
    ∃ c cs, printDigits s n = c :: cs ∧ isDigit c = true := by
  obtain ⟨d, ds, hD, hd, _⟩ := natDigits_cons s
  unfold printDigits
  split_ifs with h1 h2 h3
  · exact ⟨d, _, by rw [hD]; rfl, hd⟩
  · obtain ⟨j, hj⟩ : ∃ j, n.toNat = j + 1 := ⟨n.toNat - 1, by omega⟩
    exact ⟨d, _, by rw [hD, hj]; rfl, hd⟩
  · exact ⟨'0', _, rfl, by decide⟩
  · rw [hD]
    cases hds : ds.isEmpty
    · exact ⟨d, '.' :: ds ++ 'e' :: expSign (n - 1) :: natDigits (n - 1).natAbs,
        by simp [hds], hd⟩
    · exact ⟨d, 'e' :: expSign (n - 1) :: natDigits (n - 1).natAbs, by simp [hds], hd⟩

theorem isDigit_ne_minus (c : Char) (h : isDigit c = true) : c ≠ '-' := by
  intro heq
  subst heq
  exact absurd h (by decide)

/-- The text of a finite Number reads as a JSON number, and nothing is left
of it. -/
theorem parseNumber_finite (neg : Bool) (m : Nat) (e : Int) :
    ∃ y, ∀ rest, endsNumber rest = true →
      parseNumber (Number.toString (.finite neg m e) ++ rest) = some (y, rest) := by
  by_cases hm : m = 0
  · refine ⟨Number.ofDecimal false (digitsValue (['0'] ++ [])) (0 - (0 : Nat)),
      fun rest hr => ?_⟩
    simp only [Number.toString, hm, if_true, List.cons_append, List.nil_append, parseNumber]
    rw [if_neg (by decide)]
    simp only [parseUnsigned, lexInt_zero, lexFrac_none rest (endsNumber_point rest hr),
      lexExp_none rest (endsNumber_exp rest hr)]
    simp
  · obtain ⟨y, hy⟩ := parseUnsigned_printDigits neg (shortest m e).1 (shortest_pos m e hm)
      (shortest m e).2
    refine ⟨y, fun rest hr => ?_⟩
    cases neg with
    | true =>
      simp only [Number.toString, hm, if_false, if_true, List.cons_append, parseNumber]
      exact hy rest hr
    | false =>
      obtain ⟨c, cs, hc, hcd⟩ := printDigits_head (shortest m e).1 (shortest m e).2
      have hy' := hy rest hr
      simp only [Number.toString, hm, if_false, Bool.false_eq_true]
      rw [hc] at hy' ⊢
      simp only [List.cons_append, parseNumber, isDigit_ne_minus c hcd, if_false]
      exact hy'

theorem parseNumber_toString (neg : Bool) (m : Nat) (e : Int) (rest : List Char)
    (hr : endsNumber rest = true) :
    parseNumber (Number.toString (.finite neg m e) ++ rest)
      = some (Number.reread (.finite neg m e), rest) := by
  obtain ⟨y, hy⟩ := parseNumber_finite neg m e
  have h0 := hy [] rfl
  rw [List.append_nil] at h0
  have hre : Number.reread (.finite neg m e) = y := by
    simp [Number.reread, h0]
  rw [hre]
  exact hy rest hr

theorem toString_head (neg : Bool) (m : Nat) (e : Int) :
    ∃ d cs, Number.toString (.finite neg m e) = d :: cs ∧ (d = '-' ∨ isDigit d = true) := by
  by_cases hm : m = 0
  · exact ⟨'0', [], by simp [Number.toString, hm], Or.inr (by decide)⟩
  · cases neg with
    | true =>
      exact ⟨'-', printDigits (shortest m e).1 (shortest m e).2, by simp [Number.toString, hm],
        Or.inl rfl⟩
    | false =>
      obtain ⟨c, cs, hc, hcd⟩ := printDigits_head (shortest m e).1 (shortest m e).2
      exact ⟨c, cs, by simp [Number.toString, hm, hc], Or.inr hcd⟩

theorem isDigit_toNat (d : Char) (h : isDigit d = true) : 48 ≤ d.toNat ∧ d.toNat ≤ 57 := by
  simpa [isDigit] using h

theorem numberHead_facts (d : Char) (h : d = '-' ∨ isDigit d = true) :
    isWs d = false ∧ d ≠ '{' ∧ d ≠ '[' ∧ d ≠ '"' ∧ d ≠ 't' ∧ d ≠ 'f' ∧ d ≠ 'n' ∧ d ≠ ']'
      ∧ d ≠ '}' := by
  rcases h with h | h
  · subst h
    decide
  · have hd := isDigit_toNat d h
    have key : ∀ c : Char, ¬ (48 ≤ c.toNat ∧ c.toNat ≤ 57) → d ≠ c := by
      intro c hc heq
      subst heq
      exact hc hd
    refine ⟨?_, key _ (by decide), key _ (by decide), key _ (by decide), key _ (by decide),
      key _ (by decide), key _ (by decide), key _ (by decide), key _ (by decide)⟩
    have h1 := key ' ' (by decide)
    have h2 := key '\t' (by decide)
    have h3 := key '\n' (by decide)
    have h4 := key '\r' (by decide)
    simp [isWs, h1, h2, h3, h4]

theorem parseValue_null (f : Nat) (rest : List Char) :
    parseValue (f + 1) ('n' :: 'u' :: 'l' :: 'l' :: rest) = some (.null, rest) := by
  simp [parseValue, skipWs, isWs, expect]

theorem parseValue_true (f : Nat) (rest : List Char) :
    parseValue (f + 1) ('t' :: 'r' :: 'u' :: 'e' :: rest) = some (.bool true, rest) := by
  simp [parseValue, skipWs, isWs, expect]

theorem parseValue_false (f : Nat) (rest : List Char) :
    parseValue (f + 1) ('f' :: 'a' :: 'l' :: 's' :: 'e' :: rest) = some (.bool false, rest) := by
  simp [parseValue, skipWs, isWs, expect]

theorem parseValue_str (f : Nat) (s : JsString) (rest : List Char) :
    parseValue (f + 1) (quote s ++ rest) = some (.str s, rest) := by
  have h := parseStringBody_quoteBody s rest
  simp [parseValue, quote, skipWs, isWs, h]

theorem parseValue_num (f : Nat) (neg : Bool) (m : Nat) (e : Int) (rest : List Char)
    (h : endsNumber rest = true) :
    parseValue (f + 1) (Number.toString (.finite neg m e) ++ rest)
      = some (.num (Number.reread (.finite neg m e)), rest) := by
  obtain ⟨d, cs, hd, hhead⟩ := toString_head neg m e
  have hp := parseNumber_toString neg m e rest h
  rw [hd] at hp ⊢
  obtain ⟨h1, h2, h3, h4, h5, h6, h7, _, _⟩ := numberHead_facts d hhead
  simp only [List.cons_append] at hp
  simp [parseValue, skipWs, h1, h2, h3, h4, h5, h6, h7, hp]

theorem parseValue_emptyArr (f : Nat) (rest : List Char) :
    parseValue (f + 1) ('[' :: ']' :: rest) = some (.arr [], rest) := by
  simp [parseValue, skipWs, isWs]

theorem parseValue_emptyObj (f : Nat) (rest : List Char) :
    parseValue (f + 1) ('{' :: '}' :: rest) = some (.obj [], rest) := by
  simp [parseValue, skipWs, isWs]

theorem parseValue_arr (f : Nat) (d : Char) (cs : List Char) (hws : isWs d = false)
    (hd : d ≠ ']') :
    parseValue (f + 1) ('[' :: d :: cs) = parseElems f [] (d :: cs) := by
  have hb : isWs '[' = false := by decide
  simp [parseValue, skipWs, hb, hws, hd]

theorem parseValue_obj (f : Nat) (cs : List Char) :
    parseValue (f + 1) ('{' :: '"' :: cs) = parseMembers f [] ('"' :: cs) := by
  simp [parseValue, skipWs, isWs]

theorem parseElems_last (f : Nat) (acc : List JsVal) (cs rest : List Char) (v : JsVal)
    (h : parseValue f cs = some (v, ']' :: rest)) :
    parseElems (f + 1) acc cs = some (.arr (acc ++ [v]), rest) := by
  simp [parseElems, h, skipWs, isWs]

theorem parseElems_more (f : Nat) (acc : List JsVal) (cs rest : List Char) (v : JsVal)
    (h : parseValue f cs = some (v, ',' :: rest)) :
    parseElems (f + 1) acc cs = parseElems f (acc ++ [v]) rest := by
  simp [parseElems, h, skipWs, isWs]

theorem parseMembers_last (f : Nat) (acc : Obj) (k : JsString) (cs rest : List Char) (v : JsVal)
    (h : parseValue f cs = some (v, '}' :: rest)) :
    parseMembers (f + 1) acc (quote k ++ ':' :: cs) = some (.obj (Obj.set acc k v), rest) := by
  have hk := parseStringBody_quoteBody k (':' :: cs)
  simp [parseMembers, quote, hk, h, skipWs, isWs]

theorem parseMembers_more (f : Nat) (acc : Obj) (k : JsString) (cs rest : List Char) (v : JsVal)
    (h : parseValue f cs = some (v, ',' :: rest)) :
    parseMembers (f + 1) acc (quote k ++ ':' :: cs) = parseMembers f (Obj.set acc k v) rest := by
  have hk := parseStringBody_quoteBody k (':' :: cs)
  simp [parseMembers, quote, hk, h, skipWs, isWs]

theorem serialize_head (v : JsVal) (t : List Char) (h : serialize v = some t) :
    ∃ d cs, t = d :: cs ∧ isWs d = false ∧ d ≠ ']' := by
  cases v with
  | undefined => simp [serialize] at h
  | null =>
    simp only [serialize, Option.some.injEq] at h
    exact ⟨'n', _, h.symm, by decide, by decide⟩
  | bool b =>
    simp only [serialize, Option.some.injEq] at h
    cases b
    · exact ⟨'f', _, h.symm, by decide, by decide⟩
    · exact ⟨'t', _, h.symm, by decide, by decide⟩
  | num x =>
    cases x with
    | nan =>
      simp only [serialize, Option.some.injEq] at h
      exact ⟨'n', _, h.symm, by decide, by decide⟩
    | infinity neg =>
      simp only [serialize, Option.some.injEq] at h
      exact ⟨'n', _, h.symm, by decide, by decide⟩
    | finite neg m e =>
      simp only [serialize, Option.some.injEq] at h
      obtain ⟨d, cs, hd, hhead⟩ := toString_head neg m e
      obtain ⟨h1, _, _, _, _, _, _, h8, _⟩ := numberHead_facts d hhead
      exact ⟨d, cs, by rw [← h, hd], h1, h8⟩
  | bigint n => simp [serialize] at h
  | str s =>
    simp only [serialize, Option.some.injEq] at h
    exact ⟨'"', _, h.symm, by decide, by decide⟩
  | arr xs =>
    simp only [serialize, Option.some.injEq] at h
    exact ⟨'[', _, h.symm, by decide, by decide⟩
  | obj ps =>
    simp only [serialize, Option.some.injEq] at h
    exact ⟨'{', _, h.symm, by decide, by decide⟩
  | error n m =>
    simp only [serialize, Option.some.injEq] at h
    exact ⟨'{', _, h.symm, by decide, by decide⟩

theorem parseCost_pos (v : JsVal) : 1 ≤ parseCost v := by
  cases v <;> simp [parseCost]

theorem endsNumber_commaTail (ts : List (List Char)) (c : Char) (rest : List Char)
    (hc : c = ']' ∨ c = '}') : endsNumber (commaTail ts ++ c :: rest) = true := by
  cases ts with
  | nil =>
    rcases hc with hc | hc <;> subst hc <;> simp [commaTail, endsNumber, isDigit]
  | cons t ts => simp [commaTail, endsNumber, isDigit]

/-- The text of an array element and the value it is read back as. -/
theorem parseValue_element (x : JsVal)
    (hP : ∀ t, serialize x = some t → ∀ f rest, parseCost x ≤ f → endsNumber rest = true →
      parseValue f (t ++ rest) = some (jsonImage x, rest))
    (f : Nat) (hf : parseCost x ≤ f) (rest : List Char) (hr : endsNumber rest = true) :
    parseValue f ((serialize x).getD ['n', 'u', 'l', 'l'] ++ rest)
      = some ((match serialize x with
          | none => JsVal.null
          | some _ => jsonImage x), rest) := by
  cases hs : serialize x with
  | none =>
    obtain ⟨f', rfl⟩ : ∃ f', f = f' + 1 := ⟨f - 1, by have := parseCost_pos x; omega⟩
    exact parseValue_null f' rest
  | some t => exact hP t hs f rest hf hr

mutual
theorem parseValue_serialize : ∀ (v : JsVal) (t : List Char), serialize v = some t →
    ∀ (f : Nat) (rest : List Char), parseCost v ≤ f → endsNumber rest = true →
    parseValue f (t ++ rest) = some (jsonImage v, rest)
  | .undefined, t, h, _, _, _, _ => by simp [serialize] at h
  | .null, t, h, f, rest, hf, _ => by
    simp only [serialize, Option.some.injEq] at h
    subst h
    obtain ⟨f', rfl⟩ : ∃ f', f = f' + 1 := ⟨f - 1, by simp [parseCost] at hf; omega⟩
    exact parseValue_null f' rest
  | .bool b, t, h, f, rest, hf, _ => by
    simp only [serialize, Option.some.injEq] at h
    subst h
    obtain ⟨f', rfl⟩ : ∃ f', f = f' + 1 := ⟨f - 1, by simp [parseCost] at hf; omega⟩
    cases b
    · exact parseValue_false f' rest
    · exact parseValue_true f' rest
  | .bigint _, t, h, _, _, _, _ => by simp [serialize] at h
  | .num .nan, t, h, f, rest, hf, _ => by
    simp only [serialize, Option.some.injEq] at h
    subst h
    obtain ⟨f', rfl⟩ : ∃ f', f = f' + 1 := ⟨f - 1, by simp [parseCost] at hf; omega⟩
    exact parseValue_null f' rest
  | .num (.infinity _), t, h, f, rest, hf, _ => by
    simp only [serialize, Option.some.injEq] at h
    subst h
    obtain ⟨f', rfl⟩ : ∃ f', f = f' + 1 := ⟨f - 1, by simp [parseCost] at hf; omega⟩
    exact parseValue_null f' rest
  | .num (.finite neg m e), t, h, f, rest, hf, hr => by
    simp only [serialize, Option.some.injEq] at h
    subst h
    obtain ⟨f', rfl⟩ : ∃ f', f = f' + 1 := ⟨f - 1, by simp [parseCost] at hf; omega⟩
    exact parseValue_num f' neg m e rest hr
  | .str s, t, h, f, rest, hf, _ => by
    simp only [serialize, Option.some.injEq] at h
    subst h
    obtain ⟨f', rfl⟩ : ∃ f', f = f' + 1 := ⟨f - 1, by simp [parseCost] at hf; omega⟩
    exact parseValue_str f' s rest
  | .error _ _, t, h, f, rest, hf, _ => by
    simp only [serialize, Option.some.injEq] at h
    subst h
    obtain ⟨f', rfl⟩ : ∃ f', f = f' + 1 := ⟨f - 1, by simp [parseCost] at hf; omega⟩
    exact parseValue_emptyObj f' rest
  | .arr [], t, h, f, rest, hf, _ => by
    simp only [serialize, serializeElems, joinComma, Option.some.injEq] at h
    subst h
    obtain ⟨f', rfl⟩ : ∃ f', f = f' + 1 := ⟨f - 1, by simp [parseCost] at hf; omega⟩
    exact parseValue_emptyArr f' rest
  | .arr (x :: xs), t, h, f, rest, hf, _ => by
    simp only [serialize, serializeElems, joinComma, Option.some.injEq] at h
    subst h
    simp only [parseCost, parseCostElems] at hf
    obtain ⟨f', rfl⟩ : ∃ f', f = f' + 2 := ⟨f - 2, by have := parseCost_pos x; omega⟩
    have hv := parseValue_element x (parseValue_serialize x) f' (by omega)
    have hE := parseElems_serialize xs f' [] _ _ rest hv (by omega)
    have hhead : ∃ d cs, (serialize x).getD ['n', 'u', 'l', 'l'] = d :: cs ∧ isWs d = false
        ∧ d ≠ ']' := by
      cases hs : serialize x with
      | none => exact ⟨'n', _, rfl, by decide, by decide⟩
      | some tx => exact serialize_head x tx hs
    obtain ⟨d, cs, hd, hws, hne⟩ := hhead
    rw [hd] at hE
    simp only [List.cons_append, List.append_assoc, List.nil_append, hd] at hE ⊢
    rw [parseValue_arr (f' + 1) d _ hws hne, hE]
    simp [jsonImage, jsonImageElems]
  | .obj ps, t, h, f, rest, hf, _ => by
    simp only [serialize, Option.some.injEq] at h
    subst h
    simp only [parseCost] at hf
    obtain ⟨f', rfl⟩ : ∃ f', f = f' + 1 := ⟨f - 1, by omega⟩
    have hO := parseObj_serialize ps f' rest (by omega)
    simp only [List.cons_append, List.append_assoc, List.nil_append] at hO ⊢
    rw [hO]
    simp [jsonImage]
theorem parseElems_serialize : ∀ (xs : List JsVal) (f : Nat) (acc : List JsVal)
    (t0 : List Char) (v0 : JsVal) (rest : List Char),
    (∀ rest', endsNumber rest' = true → parseValue f (t0 ++ rest') = some (v0, rest')) →
    parseCostElems xs ≤ f →
    parseElems (f + 1) acc (t0 ++ (commaTail (serializeElems xs) ++ ']' :: rest))
      = some (.arr (acc ++ v0 :: jsonImageElems xs), rest)
  | [], f, acc, t0, v0, rest, hv, _ => by
    have h0 := hv (']' :: rest) (by simp [endsNumber, isDigit])
    simp only [serializeElems, commaTail, List.nil_append, jsonImageElems]
    exact parseElems_last f acc _ rest v0 h0
  | x :: xs, f, acc, t0, v0, rest, hv, hf => by
    simp only [parseCostElems] at hf
    obtain ⟨f', rfl⟩ : ∃ f', f = f' + 1 := ⟨f - 1, by omega⟩
    have hx := parseValue_element x (parseValue_serialize x) f' (by omega)
    have hE := parseElems_serialize xs f' (acc ++ [v0]) _ _ rest hx (by omega)
    simp only [serializeElems, commaTail, List.cons_append, List.append_assoc, jsonImageElems]
    have h0 := hv (',' :: ((serialize x).getD ['n', 'u', 'l', 'l']
      ++ (commaTail (serializeElems xs) ++ ']' :: rest))) (by simp [endsNumber, isDigit])
    rw [parseElems_more (f' + 1) acc _ _ v0 h0, hE]
    simp
theorem parseMembers_serialize : ∀ (ps : List (JsString × JsVal)) (f : Nat) (acc : Obj)
    (k0 : JsString) (t0 : List Char) (v0 : JsVal) (rest : List Char),
    (∀ rest', endsNumber rest' = true → parseValue f (t0 ++ rest') = some (v0, rest')) →
    parseCostProps ps ≤ f →
    parseMembers (f + 1) acc
        (quote k0 ++ ':' :: (t0 ++ (commaTail (serializeProps ps) ++ '}' :: rest)))
      = some (.obj ((jsonImageProps ps).foldl (fun a p => Obj.set a p.1 p.2) (Obj.set acc k0 v0)),
          rest)
  | [], f, acc, k0, t0, v0, rest, hv, _ => by
    have h0 := hv ('}' :: rest) (by simp [endsNumber, isDigit])
    simp only [serializeProps, commaTail, List.nil_append, jsonImageProps, List.foldl_nil]
    exact parseMembers_last f acc k0 _ rest v0 h0
  | (k, v) :: ps, f, acc, k0, t0, v0, rest, hv, hf => by
    cases hs : serialize v with
    | none =>
      simp only [parseCostProps, hs] at hf
      have hM := parseMembers_serialize ps f acc k0 t0 v0 rest hv hf
      simp only [serializeProps, jsonImageProps, hs]
      exact hM
    | some tv =>
      simp only [parseCostProps, hs] at hf
      obtain ⟨f', rfl⟩ : ∃ f', f = f' + 1 := ⟨f - 1, by omega⟩
      have hx : ∀ rest', endsNumber rest' = true →
          parseValue f' (tv ++ rest') = some (jsonImage v, rest') :=
        fun rest' hr => parseValue_serialize v tv hs f' rest' (by omega) hr
      have hM := parseMembers_serialize ps f' (Obj.set acc k0 v0) k tv (jsonImage v) rest hx
        (by omega)
      simp only [serializeProps, jsonImageProps, hs, commaTail, List.cons_append,
        List.append_assoc, List.foldl_cons]
      have h0 := hv (',' :: (quote k ++ ':' :: (tv
        ++ (commaTail (serializeProps ps) ++ '}' :: rest)))) (by simp [endsNumber, isDigit])
      rw [parseMembers_more (f' + 1) acc k0 _ _ v0 h0, hM]
theorem parseObj_serialize : ∀ (ps : List (JsString × JsVal)) (f : Nat) (rest : List Char),
    parseCostProps ps ≤ f →
    parseValue (f + 1) ('{' :: (joinComma (serializeProps ps) ++ '}' :: rest))
      = some (.obj ((jsonImageProps ps).foldl (fun a p => Obj.set a p.1 p.2) []), rest)
  | [], f, rest, _ => by
    simp only [serializeProps, joinComma, List.nil_append, jsonImageProps, List.foldl_nil]
    exact parseValue_emptyObj f rest
  | (k, v) :: ps, f, rest, hf => by
    cases hs : serialize v with
    | none =>
      simp only [parseCostProps, hs] at hf
      have hO := parseObj_serialize ps f rest hf
      simp only [serializeProps, jsonImageProps, hs]
      exact hO
    | some tv =>
      simp only [parseCostProps, hs] at hf
      obtain ⟨f', rfl⟩ : ∃ f', f = f' + 1 := ⟨f - 1, by omega⟩
      have hx : ∀ rest', endsNumber rest' = true →
          parseValue f' (tv ++ rest') = some (jsonImage v, rest') :=
        fun rest' hr => parseValue_serialize v tv hs f' rest' (by omega) hr
      have hM := parseMembers_serialize ps f' [] k tv (jsonImage v) rest hx (by omega)
      simp only [serializeProps, jsonImageProps, hs, joinComma, List.append_assoc,
        List.foldl_cons]
      have hq : quote k ++ ':' :: (tv ++ (commaTail (serializeProps ps) ++ '}' :: rest))
          = '"' :: (quoteBody k ++ '"' :: ':' :: (tv
            ++ (commaTail (serializeProps ps) ++ '}' :: rest))) := by
        simp [quote]
      have hq' : quote k ++ (':' :: tv ++ (commaTail (serializeProps ps) ++ '}' :: rest))
          = '"' :: (quoteBody k ++ '"' :: ':' :: (tv
            ++ (commaTail (serializeProps ps) ++ '}' :: rest))) := by
        simp [quote]
      rw [hq] at hM
      rw [hq', parseValue_obj, hM]
end

theorem commaTail_length_le (ts : List (List Char)) :
    (commaTail ts).length ≤ (joinComma ts).length + 1 := by
  cases ts with
  | nil => simp [commaTail, joinComma]
  | cons t ts => simp [commaTail, joinComma]

theorem toString_length_pos (neg : Bool) (m : Nat) (e : Int) :
    1 ≤ (Number.toString (.finite neg m e)).length := by
  obtain ⟨d, cs, hd, _⟩ := toString_head neg m e
  simp [hd]

mutual
theorem parseCost_le : ∀ (v : JsVal) (t : List Char), serialize v = some t →
    parseCost v ≤ t.length
  | .undefined, t, h => by simp [serialize] at h
  | .null, t, h => by
    simp only [serialize, Option.some.injEq] at h
    subst h
    simp [parseCost]
  | .bool b, t, h => by
    simp only [serialize, Option.some.injEq] at h
    subst h
    cases b <;> simp [parseCost]
  | .bigint _, t, h => by simp [serialize] at h
  | .num .nan, t, h => by
    simp only [serialize, Option.some.injEq] at h
    subst h
    simp [parseCost]
  | .num (.infinity _), t, h => by
    simp only [serialize, Option.some.injEq] at h
    subst h
    simp [parseCost]
  | .num (.finite neg m e), t, h => by
    simp only [serialize, Option.some.injEq] at h
    subst h
    simpa [parseCost] using toString_length_pos neg m e
  | .str s, t, h => by
    simp only [serialize, Option.some.injEq] at h
    subst h
    simp [parseCost, quote]
  | .error _ _, t, h => by
    simp only [serialize, Option.some.injEq] at h
    subst h
    simp [parseCost]
  | .arr xs, t, h => by
    simp only [serialize, Option.some.injEq] at h
    subst h
    have h1 := parseCostElems_le xs
    have h2 := commaTail_length_le (serializeElems xs)
    simp only [parseCost, List.length_cons, List.length_append, List.length_nil]
    omega
  | .obj ps, t, h => by
    simp only [serialize, Option.some.injEq] at h
    subst h
    have h1 := parseCostProps_le ps
    have h2 := commaTail_length_le (serializeProps ps)
    simp only [parseCost, List.length_cons, List.length_append, List.length_nil]
    omega
theorem parseCostElems_le : ∀ (xs : List JsVal),
    parseCostElems xs ≤ (commaTail (serializeElems xs)).length
  | [] => by simp [parseCostElems]
  | x :: xs => by
    have h1 := parseCostElems_le xs
    have h2 : parseCost x ≤ ((serialize x).getD ['n', 'u', 'l', 'l']).length := by
      cases hs : serialize x with
      | none =>
        cases x with
        | arr xs => simp [serialize] at hs
        | obj ps => simp [serialize] at hs
        | _ => simp [parseCost]
      | some t => exact parseCost_le x t hs
    simp only [parseCostElems, serializeElems, commaTail, List.length_cons, List.length_append]
    omega
theorem parseCostProps_le : ∀ (ps : List (JsString × JsVal)),
    parseCostProps ps ≤ (commaTail (serializeProps ps)).length
  | [] => by simp [parseCostProps]
  | (k, v) :: ps => by
    have h1 := parseCostProps_le ps
    cases hs : serialize v with
    | none =>
      simp only [parseCostProps, serializeProps, hs]
      exact h1
    | some t =>
      have h2 := parseCost_le v t hs
      simp only [parseCostProps, serializeProps, hs, commaTail, List.length_cons,
        List.length_append]
      omega
end

/-- What `JSON.stringify` writes, `JSON.parse` reads back as the image of the
value. -/
theorem JSON.parse_stringify (v : JsVal) (s : String) (h : JSON.stringify v = .ok (some s)) :
    JSON.parse s = .ok (jsonImage v) := by
  unfold JSON.stringify at h
  split_ifs at h with hb
  cases hs : serialize v with
  | none => simp [hs] at h
  | some t =>
    simp only [hs, Option.map_some', Except.ok.injEq, Option.some.injEq] at h
    subst h
    have hc := parseCost_le v t hs
    have hp := parseValue_serialize v t hs (t.length + 1) [] (by omega) rfl
    simp only [List.append_nil] at hp
    simp [JSON.parse, hp, skipWs]

end Js

/-! ## Contact.jsx: properties -/

namespace Contact

open Js Http Samples

theorem Form.toObj_set (form : Form) (k v : JsString) :
    Form.toObj (Obj.set form k v) = Obj.set (Form.toObj form) k (.str v) := by
  induction form with
  | nil => rfl
  | cons p ps ih =>
    obtain ⟨k', v'⟩ := p
    have hkeys : Obj.keys (List.map (fun p => (p.1, JsVal.str p.2)) ps) = Obj.keys ps := by
      simp [Obj.keys, Function.comp_def]
    simp only [Form.toObj] at ih
    simp only [Obj.set, Form.toObj, List.map_cons, hkeys]
    split_ifs with h1 h2
    · rfl
    · rfl
    · simp [ih]

theorem Form.toObj_strings (form : Form) : ∀ p ∈ Form.toObj form, ∃ s, p.2 = JsVal.str s := by
  intro p hp
  simp only [Form.toObj, List.mem_map] at hp
  obtain ⟨q, _, hq⟩ := hp
  exact ⟨q.2, by rw [← hq]⟩

theorem Form.toObj_keys (form : Form) : Obj.keys (Form.toObj form) = Obj.keys form := by
  simp [Obj.keys, Form.toObj, Function.comp_def]

/-- C4: when the response's parsed body declares success (`data.success` is
truthy), the state after `handleSubmit` has the status
"✅ Email sent successfully!", which contains "success", and the form is
exactly the three empty fields. -/
theorem handleSubmit_success (net : Network) (st : ContactPage) (res : Response)
    (data success : JsVal)
    (hfetch : net "/api/sendEmail" (submitInit st.form) = .ok res)
    (hjson : res.json = .ok data)
    (hprop : data.getProp (utf16 "success") = .ok success)
    (htruthy : success.truthy = true) :
    (st.run (handleSubmit net st)).status = "✅ Email sent successfully!"
      ∧ includes (st.run (handleSubmit net st)).status "success"
      ∧ (st.run (handleSubmit net st)).form
          = [(utf16 "name", utf16 ""), (utf16 "email", utf16 ""), (utf16 "message", utf16 "")] := by
  have hrun : st.run (handleSubmit net st)
      = { form := mkForm (utf16 "") (utf16 "") (utf16 ""),
          status := "✅ Email sent successfully!", loading := false } := by
    simp [handleSubmit, handleSubmit.tryBlock, hfetch, hjson, hprop, htruthy,
      ContactPage.run, ContactPage.apply]
  rw [hrun]
  refine ⟨rfl, ?_, rfl⟩
  show includes "✅ Email sent successfully!" "success"
  decide

/-- The sample form submitted over a network that answers success. -/
theorem handleSubmit_success_witness :
    (anaPage.run (handleSubmit okNet anaPage)).status = "✅ Email sent successfully!"
      ∧ includes (anaPage.run (handleSubmit okNet anaPage)).status "success"
      ∧ (anaPage.run (handleSubmit okNet anaPage)).form
          = [(utf16 "name", utf16 ""), (utf16 "email", utf16 ""), (utf16 "message", utf16 "")] :=
  handleSubmit_success okNet anaPage { body := some "\x7b\"success\":true\x7d", status := 200 }
    (.obj [(utf16 "success", .bool true)]) (.bool true) rfl rfl rfl rfl

/-- C5: when `fetch` rejects, or parsing the response body throws, or the
parsed body declares failure (`data.success` is falsy), or reading
`data.success` throws, the state after `handleSubmit` has a failure status,
one containing "❌", and the form is the one before the submission. -/
theorem handleSubmit_failure (net : Network) (st : ContactPage)
    (h : (∃ error, net "/api/sendEmail" (submitInit st.form) = .error error)
      ∨ (∃ res error, net "/api/sendEmail" (submitInit st.form) = .ok res
          ∧ res.json = .error error)
      ∨ (∃ res data success, net "/api/sendEmail" (submitInit st.form) = .ok res
          ∧ res.json = .ok data ∧ data.getProp (utf16 "success") = .ok success
          ∧ success.truthy = false)
      ∨ (∃ res data error, net "/api/sendEmail" (submitInit st.form) = .ok res
          ∧ res.json = .ok data ∧ data.getProp (utf16 "success") = .error error)) :
    ((st.run (handleSubmit net st)).status = "❌ Failed to send email."
        ∨ (st.run (handleSubmit net st)).status = "❌ Error sending email.")
      ∧ includes (st.run (handleSubmit net st)).status "❌"
      ∧ (st.run (handleSubmit net st)).form = st.form
      ∧ Form.get (st.run (handleSubmit net st)).form (utf16 "name")
          = Form.get st.form (utf16 "name")
      ∧ Form.get (st.run (handleSubmit net st)).form (utf16 "email")
          = Form.get st.form (utf16 "email")
      ∧ Form.get (st.run (handleSubmit net st)).form (utf16 "message")
          = Form.get st.form (utf16 "message") := by
  have hrun : st.run (handleSubmit net st)
        = { form := st.form, status := "❌ Failed to send email.", loading := false }
      ∨ st.run (handleSubmit net st)
        = { form := st.form, status := "❌ Error sending email.", loading := false } := by
    rcases h with ⟨e, h1⟩ | ⟨res, e, h1, h2⟩ | ⟨res, data, s, h1, h2, h3, h4⟩
      | ⟨res, data, e, h1, h2, h3⟩
    · right
      simp [handleSubmit, handleSubmit.tryBlock, h1, ContactPage.run, ContactPage.apply]
    · right
      simp [handleSubmit, handleSubmit.tryBlock, h1, h2, ContactPage.run, ContactPage.apply]
    · left
      simp [handleSubmit, handleSubmit.tryBlock, h1, h2, h3, h4, ContactPage.run,
        ContactPage.apply]
    · right
      simp [handleSubmit, handleSubmit.tryBlock, h1, h2, h3, ContactPage.run, ContactPage.apply]
  rcases hrun with hrun | hrun <;> rw [hrun]
  · refine ⟨Or.inl rfl, ?_, rfl, rfl, rfl, rfl⟩
    show includes "❌ Failed to send email." "❌"
    decide
  · refine ⟨Or.inr rfl, ?_, rfl, rfl, rfl, rfl⟩
    show includes "❌ Error sending email." "❌"
    decide

/-- The sample form submitted over a network that is down. -/
theorem handleSubmit_failure_witness :
    ((anaPage.run (handleSubmit downNet anaPage)).status = "❌ Failed to send email."
        ∨ (anaPage.run (handleSubmit downNet anaPage)).status = "❌ Error sending email.")
      ∧ includes (anaPage.run (handleSubmit downNet anaPage)).status "❌"
      ∧ (anaPage.run (handleSubmit downNet anaPage)).form = anaPage.form
      ∧ Form.get (anaPage.run (handleSubmit downNet anaPage)).form (utf16 "name")
          = Form.get anaPage.form (utf16 "name")
      ∧ Form.get (anaPage.run (handleSubmit downNet anaPage)).form (utf16 "email")
          = Form.get anaPage.form (utf16 "email")
      ∧ Form.get (anaPage.run (handleSubmit downNet anaPage)).form (utf16 "message")
          = Form.get anaPage.form (utf16 "message") :=
  handleSubmit_failure downNet anaPage (Or.inl ⟨typeError "Failed to fetch", rfl⟩)

/-- C6: `handleChange` sets the field named by the event to the event's
value and leaves every other field, the status and the loading flag as they
were; for a field the form already has (`name`, `email`, `message`), the
form keeps its fields. -/
theorem handleChange_frame (st : ContactPage) (f v : JsString) :
    Form.get (handleChange st { name := f, value := v }).form f = .str v
      ∧ (∀ g, g ≠ f → Form.get (handleChange st { name := f, value := v }).form g
            = Form.get st.form g)
      ∧ (handleChange st { name := f, value := v }).status = st.status
      ∧ (handleChange st { name := f, value := v }).loading = st.loading
      ∧ (f ∈ Obj.keys st.form →
          Obj.keys (handleChange st { name := f, value := v }).form = Obj.keys st.form) := by
  refine ⟨?_, ?_, rfl, rfl, ?_⟩
  · simp only [handleChange, Form.get, Form.toObj_set]
    exact Obj.get_set_same _ _ _
  · intro g hg
    simp only [handleChange, Form.get, Form.toObj_set]
    exact Obj.get_set_other _ _ _ _ hg
  · intro hf
    exact Obj.keys_set_mem _ _ _ hf

/-- The email field of the sample form edited. -/
theorem handleChange_frame_witness :
    Form.get (handleChange anaPage { name := utf16 "email", value := utf16 "bo@x.com" }).form
        (utf16 "email") = .str (utf16 "bo@x.com")
      ∧ Form.get (handleChange anaPage { name := utf16 "email", value := utf16 "bo@x.com" }).form
        (utf16 "name") = Form.get anaPage.form (utf16 "name")
      ∧ Form.get (handleChange anaPage { name := utf16 "email", value := utf16 "bo@x.com" }).form
        (utf16 "message") = Form.get anaPage.form (utf16 "message")
      ∧ Obj.keys (handleChange anaPage { name := utf16 "email", value := utf16 "bo@x.com" }).form
        = Obj.keys anaPage.form :=
  ⟨(handleChange_frame anaPage (utf16 "email") (utf16 "bo@x.com")).1,
   (handleChange_frame anaPage (utf16 "email") (utf16 "bo@x.com")).2.1 (utf16 "name")
     (by decide),
   (handleChange_frame anaPage (utf16 "email") (utf16 "bo@x.com")).2.1 (utf16 "message")
     (by decide),
   (handleChange_frame anaPage (utf16 "email") (utf16 "bo@x.com")).2.2.2.2 (by decide)⟩

/-- C7: `handleSubmit` first clears the status and sets the loading flag,
then issues the request; whatever the request leads to, its last effect
clears the loading flag, which is false when `handleSubmit` completes. -/
theorem handleSubmit_loading (net : Network) (st : ContactPage) :
    (∃ rest, handleSubmit net st
        = [.preventDefault, .setStatus "", .setLoading true,
            .fetch "/api/sendEmail" (submitInit st.form)] ++ rest ++ [.setLoading false])
      ∧ (st.run [.preventDefault, .setStatus "", .setLoading true]).status = ""
      ∧ (st.run [.preventDefault, .setStatus "", .setLoading true]).loading = true
      ∧ (st.run [.preventDefault, .setStatus "", .setLoading true]).form = st.form
      ∧ (st.run (handleSubmit net st)).loading = false := by
  refine ⟨⟨_, rfl⟩, rfl, rfl, rfl, ?_⟩
  simp [handleSubmit, ContactPage.run, List.foldl_append, ContactPage.apply]

end Contact

/-! ## route.js: properties -/

namespace Route

open Js Http Samples

theorem destructure_strings (body : JsVal) (n e m : JsVal)
    (hn : body.getProp (utf16 "name") = .ok n) (he : body.getProp (utf16 "email") = .ok e)
    (hm : body.getProp (utf16 "message") = .ok m) :
    destructure body = .ok (n, e, m) := by
  simp [destructure, hn, he, hm]

theorem emailText_includes (n m : JsString) :
    JsString.includes (emailText n m) n ∧ JsString.includes (emailText n m) m := by
  constructor
  · refine ⟨utf16 "Hi ",
      utf16 ",\n\nThank you for contacting us. We received your message:\n\n\"" ++ m
        ++ utf16 "\"\n\nWe will get back to you soon.\n\n- Muhammad Abdullah", ?_⟩
    simp [emailText, List.append_assoc]
  · refine ⟨utf16 "Hi " ++ n
      ++ utf16 ",\n\nThank you for contacting us. We received your message:\n\n\"",
      utf16 "\"\n\nWe will get back to you soon.\n\n- Muhammad Abdullah", ?_⟩
    simp [emailText, List.append_assoc]

theorem POST.catch_sent (err : JsVal) (w : Server) : (POST.catch err w).2.sent = w.sent := by
  unfold POST.catch
  split <;> rfl

theorem POST.catch_answer (err : JsVal) (w0 w1 : Server) :
    (POST.catch err w0).1 = (POST.catch err w1).1 := by
  unfold POST.catch
  split <;> rfl

/-- C1, as stated, fails: when the provider's send call throws an object
that holds a BigInt, the `JSON.stringify` of the `catch` block throws in its
turn, and `POST` rejects instead of answering 500. -/
theorem POST_throw_500_counterexample :
    ¬ ∀ (env : Env) (req : Request) (w : Server) (body name email message : JsVal)
        (resend : ResendClient) (msg : Message) (error : JsVal),
        req.json = .ok body → destructure body = .ok (name, email, message) →
        env.Resend env.RESEND_KEY = .ok resend → mkMessage name email message = .ok msg →
        resend.send msg = .error error →
        ∃ res, (POST env req w).1 = .ok res ∧ res.status = 500 := by
  intro h
  obtain ⟨res, hres, _⟩ := h bigintThrowingEnv anaRequest freshServer anaBody
    (.str (utf16 "Ana")) (.str (utf16 "ana@x.com")) (.str (utf16 "Hi")) bigintThrowingClient
    anaMessage (.obj [(utf16 "code", .bigint 1)]) rfl rfl rfl rfl rfl
  have hrej : (POST bigintThrowingEnv anaRequest freshServer).1
      = .error (typeError "Do not know how to serialize a BigInt") := rfl
  rw [hrej] at hres
  cases hres

/-- C1, amended: whatever throws inside the `try` block (parsing the body,
reading the three fields, constructing the provider client, building the
message, the awaited send call, or serializing the answer), if
`JSON.stringify` can write the thrown value, `POST` returns a response of
status 500 whose body is the JSON serialization of the object with
`success: false` and `error` the thrown value, and the error is logged. -/
theorem POST_throw_500 (env : Env) (req : Request) (w : Server) (error : JsVal)
    (text : Option String)
    (h : req.json = .error error
      ∨ (∃ body, req.json = .ok body ∧ destructure body = .error error)
      ∨ (∃ body name email message, req.json = .ok body
          ∧ destructure body = .ok (name, email, message)
          ∧ env.Resend env.RESEND_KEY = .error error)
      ∨ (∃ body name email message resend, req.json = .ok body
          ∧ destructure body = .ok (name, email, message)
          ∧ env.Resend env.RESEND_KEY = .ok resend
          ∧ mkMessage name email message = .error error)
      ∨ (∃ body name email message resend msg, req.json = .ok body
          ∧ destructure body = .ok (name, email, message)
          ∧ env.Resend env.RESEND_KEY = .ok resend
          ∧ mkMessage name email message = .ok msg
          ∧ resend.send msg = .error error)
      ∨ (∃ body name email message resend msg userMail, req.json = .ok body
          ∧ destructure body = .ok (name, email, message)
          ∧ env.Resend env.RESEND_KEY = .ok resend
          ∧ mkMessage name email message = .ok msg
          ∧ resend.send msg = .ok userMail
          ∧ JSON.stringify (.obj [(utf16 "success", .bool true), (utf16 "userMail", userMail)])
              = .error error))
    (hwrite : JSON.stringify (.obj [(utf16 "success", .bool false), (utf16 "error", error)])
      = .ok text) :
    (POST env req w).1 = .ok { body := text, status := 500 }
      ∧ (POST env req w).2.console
          = w.console ++ [[.str (utf16 "Error sending email:"), error]] := by
  rcases h with h | ⟨body, h1, h2⟩ | ⟨body, n, e, m, h1, h2, h3⟩ | ⟨body, n, e, m, r, h1, h2, h3, h4⟩
    | ⟨body, n, e, m, r, msg, h1, h2, h3, h4, h5⟩
    | ⟨body, n, e, m, r, msg, v, h1, h2, h3, h4, h5, h6⟩
  · simp [POST, POST.catch, h, hwrite]
  · simp [POST, POST.catch, h1, h2, hwrite]
  · simp [POST, POST.catch, h1, h2, h3, hwrite]
  · simp [POST, POST.catch, h1, h2, h3, h4, hwrite]
  · simp [POST, POST.catch, h1, h2, h3, h4, h5, hwrite]
  · simp [POST, POST.catch, h1, h2, h3, h4, h5, h6, hwrite]

/-- The answer to the sample request when the environment variable is unset:
the provider constructor throws. -/
theorem POST_throw_500_witness :
    (POST noKeyEnv anaRequest freshServer).1
        = .ok { body := some "\x7b\"success\":false,\"error\":\x7b\x7d\x7d", status := 500 }
      ∧ (POST noKeyEnv anaRequest freshServer).2.console
        = [] ++ [[.str (utf16 "Error sending email:"),
            .error (utf16 "Error") (utf16 "Missing API key")]] :=
  POST_throw_500 noKeyEnv anaRequest freshServer (.error (utf16 "Error") (utf16 "Missing API key"))
    (some "\x7b\"success\":false,\"error\":\x7b\x7d\x7d")
    (Or.inr (Or.inr (Or.inl ⟨anaBody, .str (utf16 "Ana"), .str (utf16 "ana@x.com"),
      .str (utf16 "Hi"), rfl, rfl, rfl⟩))) rfl

/-- C2, as stated, fails: when the provider's send call returns an object
that holds a BigInt, `JSON.stringify` throws inside the `try` block and
`POST` answers 500, not 200. -/
theorem POST_ok_200_counterexample :
    ¬ ∀ (env : Env) (req : Request) (w : Server) (body name email message : JsVal)
        (resend : ResendClient) (msg : Message) (v : JsVal),
        req.json = .ok body → destructure body = .ok (name, email, message) →
        env.Resend env.RESEND_KEY = .ok resend → mkMessage name email message = .ok msg →
        resend.send msg = .ok v →
        ∃ res, (POST env req w).1 = .ok res ∧ res.status = 200 := by
  intro h
  obtain ⟨res, hres, hstatus⟩ := h bigintEnv anaRequest freshServer anaBody
    (.str (utf16 "Ana")) (.str (utf16 "ana@x.com")) (.str (utf16 "Hi")) bigintClient
    anaMessage (.obj [(utf16 "data", .obj [(utf16 "id", .bigint 1)])]) rfl rfl rfl rfl rfl
  have h500 : (POST bigintEnv anaRequest freshServer).1
      = .ok { body := some "\x7b\"success\":false,\"error\":\x7b\x7d\x7d", status := 500 } := rfl
  rw [h500] at hres
  cases hres
  simp at hstatus

/-- C2, amended: when the body parses, the handler reaches the send call and
the call returns a value `v` that `JSON.stringify` can write, `POST` returns
status 200 with the JSON serialization of the object with `success: true`
and `userMail: v`; conversely the status is 200 only when every step,
that serialization included, ran without throwing. -/
theorem POST_ok_200 (env : Env) (req : Request) (w : Server) :
    (∀ body name email message resend msg v text,
        req.json = .ok body → destructure body = .ok (name, email, message) →
        env.Resend env.RESEND_KEY = .ok resend → mkMessage name email message = .ok msg →
        resend.send msg = .ok v →
        JSON.stringify (.obj [(utf16 "success", .bool true), (utf16 "userMail", v)]) = .ok text →
        (POST env req w).1 = .ok { body := text, status := 200 })
      ∧ (∀ res, (POST env req w).1 = .ok res → res.status = 200 →
          ∃ body name email message resend msg v,
            req.json = .ok body ∧ destructure body = .ok (name, email, message)
              ∧ env.Resend env.RESEND_KEY = .ok resend ∧ mkMessage name email message = .ok msg
              ∧ resend.send msg = .ok v
              ∧ JSON.stringify (.obj [(utf16 "success", .bool true), (utf16 "userMail", v)])
                  = .ok res.body) := by
  have hcatch : ∀ (err : JsVal) (w0 : Server) (res : Response),
      (POST.catch err w0).1 = .ok res → res.status = 200 → False := by
    intro err w0 res hres hstatus
    unfold POST.catch at hres
    cases hs : JSON.stringify (.obj [(utf16 "success", .bool false), (utf16 "error", err)]) with
    | error t => simp [hs] at hres
    | ok t =>
      simp only [hs, Except.ok.injEq] at hres
      subst hres
      simp at hstatus
  constructor
  · intro body n e m r msg v text h1 h2 h3 h4 h5 h6
    simp [POST, h1, h2, h3, h4, h5, h6]
  · intro res h hstatus
    unfold POST at h
    cases h1 : req.json with
    | error err =>
      simp only [h1] at h
      exact (hcatch _ _ _ h hstatus).elim
    | ok body =>
      cases h2 : destructure body with
      | error err =>
        simp only [h1, h2] at h
        exact (hcatch _ _ _ h hstatus).elim
      | ok t =>
        obtain ⟨n, e, m⟩ := t
        cases h3 : env.Resend env.RESEND_KEY with
        | error err =>
          simp only [h1, h2, h3] at h
          exact (hcatch _ _ _ h hstatus).elim
        | ok r =>
          cases h4 : mkMessage n e m with
          | error err =>
            simp only [h1, h2, h3, h4] at h
            exact (hcatch _ _ _ h hstatus).elim
          | ok msg =>
            cases h5 : r.send msg with
            | error err =>
              simp only [h1, h2, h3, h4, h5] at h
              exact (hcatch _ _ _ h hstatus).elim
            | ok v =>
              cases h6 : JSON.stringify
                  (.obj [(utf16 "success", .bool true), (utf16 "userMail", v)]) with
              | error err =>
                simp only [h1, h2, h3, h4, h5, h6] at h
                exact (hcatch _ _ _ h hstatus).elim
              | ok text =>
                simp only [h1, h2, h3, h4, h5, h6, Except.ok.injEq] at h
                subst h
                exact ⟨body, n, e, m, r, msg, v, rfl, h2, rfl, h4, h5, h6⟩

/-- The answer to the sample request when the provider accepts. -/
theorem POST_ok_200_witness :
    (POST goodEnv anaRequest freshServer).1
      = .ok { body := some "\x7b\"success\":true,\"userMail\":\x7b\"data\":\x7b\"id\":\"re_1\"\x7d,\"error\":null\x7d\x7d",
              status := 200 } :=
  (POST_ok_200 goodEnv anaRequest freshServer).1 anaBody
    (.str (utf16 "Ana")) (.str (utf16 "ana@x.com")) (.str (utf16 "Hi")) acceptingClient
    anaMessage _ _ rfl rfl rfl rfl rfl rfl

/-- C3: for a body whose `name`, `email` and `message` are the strings `n`,
`e` and `m`, `POST` gives the provider's send call no message but the one
with the fixed sender, `to` the submitted email, the fixed subject, and as
text the template with `n` and `m` put in (and it gives that message once the
provider client is constructed); the text contains both `n` and `m`. -/
theorem POST_message (env : Env) (req : Request) (w : Server) (body : JsVal) (n e m : JsString)
    (hjson : req.json = .ok body)
    (hn : body.getProp (utf16 "name") = .ok (.str n))
    (he : body.getProp (utf16 "email") = .ok (.str e))
    (hm : body.getProp (utf16 "message") = .ok (.str m)) :
    ((POST env req w).2.sent = w.sent
        ∨ (POST env req w).2.sent
          = w.sent ++ [{ from_ := "Muhammad Abdullah <onboarding@resend.dev>"
                         to_ := .str e
                         subject := "✅ We received your message"
                         text := utf16 "Hi " ++ n
                           ++ utf16 ",\n\nThank you for contacting us. We received your message:\n\n\""
                           ++ m
                           ++ utf16 "\"\n\nWe will get back to you soon.\n\n- Muhammad Abdullah" }])
      ∧ (∀ resend, env.Resend env.RESEND_KEY = .ok resend →
          (POST env req w).2.sent
            = w.sent ++ [{ from_ := "Muhammad Abdullah <onboarding@resend.dev>"
                           to_ := .str e
                           subject := "✅ We received your message"
                           text := utf16 "Hi " ++ n
                             ++ utf16 ",\n\nThank you for contacting us. We received your message:\n\n\""
                             ++ m
                             ++ utf16 "\"\n\nWe will get back to you soon.\n\n- Muhammad Abdullah" }])
      ∧ JsString.includes (utf16 "Hi " ++ n
            ++ utf16 ",\n\nThank you for contacting us. We received your message:\n\n\""
            ++ m ++ utf16 "\"\n\nWe will get back to you soon.\n\n- Muhammad Abdullah") n
      ∧ JsString.includes (utf16 "Hi " ++ n
            ++ utf16 ",\n\nThank you for contacting us. We received your message:\n\n\""
            ++ m ++ utf16 "\"\n\nWe will get back to you soon.\n\n- Muhammad Abdullah") m := by
  have hd := destructure_strings body _ _ _ hn he hm
  have hmsg : mkMessage (.str n) (.str e) (.str m)
      = .ok { from_ := "Muhammad Abdullah <onboarding@resend.dev>"
              to_ := .str e
              subject := "✅ We received your message"
              text := emailText n m } := by
    simp [mkMessage, JsVal.toStr]
  have hsent : ∀ resend, env.Resend env.RESEND_KEY = .ok resend →
      (POST env req w).2.sent
        = w.sent ++ [{ from_ := "Muhammad Abdullah <onboarding@resend.dev>"
                       to_ := .str e
                       subject := "✅ We received your message"
                       text := emailText n m }] := by
    intro resend hnew
    unfold POST
    simp only [hjson, hd, hnew, hmsg]
    cases resend.send _ with
    | error err => simp only [POST.catch_sent]
    | ok v =>
      simp only
      split
      · simp only [POST.catch_sent]
      · rfl
  refine ⟨?_, hsent, emailText_includes n m⟩
  cases hnew : env.Resend env.RESEND_KEY with
  | ok resend => exact Or.inr (hsent resend hnew)
  | error err =>
    left
    unfold POST
    simp only [hjson, hd, hnew, POST.catch_sent]

/-- The message built for the sample request: the Ana scenario of the
specification. -/
theorem POST_message_witness :
    (POST goodEnv anaRequest freshServer).2.sent
        = [] ++ [{ from_ := "Muhammad Abdullah <onboarding@resend.dev>"
                   to_ := .str (utf16 "ana@x.com")
                   subject := "✅ We received your message"
                   text := utf16 "Hi " ++ utf16 "Ana"
                     ++ utf16 ",\n\nThank you for contacting us. We received your message:\n\n\""
                     ++ utf16 "Hi"
                     ++ utf16 "\"\n\nWe will get back to you soon.\n\n- Muhammad Abdullah" }]
      ∧ JsString.includes (utf16 "Hi " ++ utf16 "Ana"
            ++ utf16 ",\n\nThank you for contacting us. We received your message:\n\n\""
            ++ utf16 "Hi"
            ++ utf16 "\"\n\nWe will get back to you soon.\n\n- Muhammad Abdullah") (utf16 "Ana")
      ∧ JsString.includes (utf16 "Hi " ++ utf16 "Ana"
            ++ utf16 ",\n\nThank you for contacting us. We received your message:\n\n\""
            ++ utf16 "Hi"
            ++ utf16 "\"\n\nWe will get back to you soon.\n\n- Muhammad Abdullah") (utf16 "Hi") :=
  ⟨(POST_message goodEnv anaRequest freshServer anaBody (utf16 "Ana") (utf16 "ana@x.com")
      (utf16 "Hi") rfl rfl rfl rfl).2.1 acceptingClient rfl,
   (POST_message goodEnv anaRequest freshServer anaBody (utf16 "Ana") (utf16 "ana@x.com")
      (utf16 "Hi") rfl rfl rfl rfl).2.2⟩

/-- C10, as stated, fails: with the environment variable unset the provider
constructor throws, and the handler answers a body with `name`, `email` and
`message` without invoking the send call at all. -/
theorem POST_send_once_counterexample :
    ¬ ∀ (env : Env) (req : Request) (w : Server) (n e m : JsString),
        req.json = .ok (.obj (Contact.Form.toObj (Contact.mkForm n e m))) →
        (POST env req w).2.sent.length = w.sent.length + 1 := by
  intro h
  have h1 := h noKeyEnv anaRequest freshServer (utf16 "Ana") (utf16 "ana@x.com") (utf16 "Hi") rfl
  have h2 : (POST noKeyEnv anaRequest freshServer).2.sent.length = 0 := rfl
  rw [h2] at h1
  simp [freshServer] at h1

/-- C10, amended: when the handler reaches the send call (the body parses
and yields the three fields, the provider client is constructed, the message
is built), it invokes the call exactly once, the response is made from the
call's outcome, and handling the same request again invokes it once more. -/
theorem POST_send_once (env : Env) (req : Request) (w : Server) (body name email message : JsVal)
    (resend : ResendClient) (msg : Message)
    (hjson : req.json = .ok body)
    (hdes : destructure body = .ok (name, email, message))
    (hnew : env.Resend env.RESEND_KEY = .ok resend)
    (hmsg : mkMessage name email message = .ok msg) :
    (POST env req w).2.sent = w.sent ++ [msg]
      ∧ (POST env req w).1
          = (match resend.send msg with
             | .ok v =>
               (match JSON.stringify
                   (.obj [(utf16 "success", .bool true), (utf16 "userMail", v)]) with
                | .ok text => .ok { body := text, status := 200 }
                | .error err => (POST.catch err w).1)
             | .error err => (POST.catch err w).1)
      ∧ (POST env req (POST env req w).2).2.sent = w.sent ++ [msg, msg] := by
  have key : ∀ w0 : Server, (POST env req w0).2.sent = w0.sent ++ [msg] := by
    intro w0
    unfold POST
    simp only [hjson, hdes, hnew, hmsg]
    cases resend.send msg with
    | error err => simp only [POST.catch_sent]
    | ok v =>
      simp only
      split
      · simp only [POST.catch_sent]
      · rfl
  refine ⟨key w, ?_, ?_⟩
  · unfold POST
    simp only [hjson, hdes, hnew, hmsg]
    cases resend.send msg with
    | error err => exact POST.catch_answer _ _ _
    | ok v =>
      simp only
      cases JSON.stringify (.obj [(utf16 "success", .bool true), (utf16 "userMail", v)]) with
      | error err => exact POST.catch_answer _ _ _
      | ok text => rfl
  · rw [key, key]
    simp

/-- The sample request handled once, and then once more. -/
theorem POST_send_once_witness :
    (POST goodEnv anaRequest freshServer).2.sent = [] ++ [anaMessage]
      ∧ (POST goodEnv anaRequest freshServer).1
          = (match acceptingClient.send anaMessage with
             | .ok v =>
               (match JSON.stringify
                   (.obj [(utf16 "success", .bool true), (utf16 "userMail", v)]) with
                | .ok text => .ok { body := text, status := 200 }
                | .error err => (POST.catch err freshServer).1)
             | .error err => (POST.catch err freshServer).1)
      ∧ (POST goodEnv anaRequest (POST goodEnv anaRequest freshServer).2).2.sent
          = [] ++ [anaMessage, anaMessage] :=
  POST_send_once goodEnv anaRequest freshServer anaBody
    (.str (utf16 "Ana")) (.str (utf16 "ana@x.com")) (.str (utf16 "Hi")) acceptingClient
    anaMessage rfl rfl rfl rfl

end Route

/-! ## The form client and the endpoint together -/

namespace Contact

open Js Http Samples

/-- `JSON.stringify` writes every form: the body of the request is a text. -/
theorem submitInit_body (form : Form) :
    ∃ s, JSON.stringify (.obj (Form.toObj form)) = .ok (some s)
      ∧ (submitInit form).body = some s := by
  obtain ⟨s, hs⟩ := JSON.stringify_strings (Form.toObj form) (Form.toObj_strings form)
  exact ⟨s, hs, by simp [submitInit, hs]⟩

/-- The body `handleSubmit` sends for a form with distinct keys, none an
array index, is read by `req.json()` as that form. -/
theorem submit_json (form : Form) (hnd : (Obj.keys form).Nodup)
    (hidx : ∀ k ∈ Obj.keys form, arrayIndex k = none) :
    Request.json { body := (submitInit form).body } = .ok (.obj (Form.toObj form)) := by
  obtain ⟨s, hs, hbody⟩ := submitInit_body form
  obtain ⟨s', hs', hbom⟩ := JSON.stringify_obj _ _ hs
  cases hs'
  have hp := JSON.parse_stringify (.obj (Form.toObj form)) s hs
  rw [jsonImage_strings (Form.toObj form) (Form.toObj_strings form)
    (by rw [Form.toObj_keys]; exact hnd) (by rw [Form.toObj_keys]; exact hidx)] at hp
  simp [Request.json, hbody, hbom, hp]

theorem mkForm_keys (n e m : JsString) : (Obj.keys (mkForm n e m)).Nodup := by
  have h1 : utf16 "name" ≠ utf16 "email" := by decide
  have h2 : utf16 "name" ≠ utf16 "message" := by decide
  have h3 : utf16 "email" ≠ utf16 "message" := by decide
  simp [mkForm, Obj.keys, h1, h2, h3]

theorem mkForm_noIndex (n e m : JsString) : ∀ k ∈ Obj.keys (mkForm n e m), arrayIndex k = none := by
  intro k hk
  simp only [mkForm, Obj.keys, List.map_cons, List.map_nil, List.mem_cons, List.mem_singleton,
    List.not_mem_nil, or_false] at hk
  rcases hk with hk | hk | hk <;> subst hk <;> decide

/-- C9: for a form holding the strings `n`, `e` and `m` under `name`,
`email` and `message`, in whatever order, the endpoint's `req.json()` reads
the body the client wrote with `JSON.stringify(form)` as the very same
object: no field is lost or added, and the three fields read back are `n`,
`e` and `m`. -/
theorem json_round_trip (n e m : JsString) (form : Form) (hperm : form.Perm (mkForm n e m)) :
    Request.json { body := (submitInit form).body } = .ok (.obj (Form.toObj form))
      ∧ JsVal.getProp (.obj (Form.toObj form)) (utf16 "name") = .ok (.str n)
      ∧ JsVal.getProp (.obj (Form.toObj form)) (utf16 "email") = .ok (.str e)
      ∧ JsVal.getProp (.obj (Form.toObj form)) (utf16 "message") = .ok (.str m)
      ∧ Route.destructure (.obj (Form.toObj form)) = .ok (.str n, .str e, .str m) := by
  have hkeys : (Obj.keys form).Nodup :=
    (List.Perm.nodup_iff (List.Perm.map Prod.fst hperm)).2 (mkForm_keys n e m)
  have hidx : ∀ k ∈ Obj.keys form, arrayIndex k = none := fun k hk =>
    mkForm_noIndex n e m k ((List.Perm.map Prod.fst hperm).mem_iff.1 hk)
  have hkeys' : (Obj.keys (Form.toObj form)).Nodup := by rw [Form.toObj_keys]; exact hkeys
  have hmem : ∀ k v, (k, v) ∈ mkForm n e m → Obj.get (Form.toObj form) k = .str v := by
    intro k v hkv
    refine Obj.get_of_mem _ _ _ ?_ hkeys'
    exact List.mem_map.2 ⟨(k, v), hperm.mem_iff.2 hkv, rfl⟩
  have hn : Obj.get (Form.toObj form) (utf16 "name") = .str n := hmem _ _ (by simp [mkForm])
  have he : Obj.get (Form.toObj form) (utf16 "email") = .str e := hmem _ _ (by simp [mkForm])
  have hm : Obj.get (Form.toObj form) (utf16 "message") = .str m := hmem _ _ (by simp [mkForm])
  refine ⟨submit_json form hkeys hidx, ?_, ?_, ?_, ?_⟩
  · simp [JsVal.getProp, hn]
  · simp [JsVal.getProp, he]
  · simp [JsVal.getProp, hm]
  · simp [Route.destructure, JsVal.getProp, hn, he, hm]

/-- The sample form with its fields in another order. -/
theorem json_round_trip_witness :
    Request.json { body := (submitInit [(utf16 "message", utf16 "Hi"), (utf16 "name", utf16 "Ana"),
        (utf16 "email", utf16 "ana@x.com")]).body }
        = .ok (.obj (Form.toObj [(utf16 "message", utf16 "Hi"), (utf16 "name", utf16 "Ana"),
            (utf16 "email", utf16 "ana@x.com")]))
      ∧ JsVal.getProp (.obj (Form.toObj [(utf16 "message", utf16 "Hi"), (utf16 "name", utf16 "Ana"),
          (utf16 "email", utf16 "ana@x.com")])) (utf16 "name") = .ok (.str (utf16 "Ana"))
      ∧ JsVal.getProp (.obj (Form.toObj [(utf16 "message", utf16 "Hi"), (utf16 "name", utf16 "Ana"),
          (utf16 "email", utf16 "ana@x.com")])) (utf16 "email") = .ok (.str (utf16 "ana@x.com"))
      ∧ JsVal.getProp (.obj (Form.toObj [(utf16 "message", utf16 "Hi"), (utf16 "name", utf16 "Ana"),
          (utf16 "email", utf16 "ana@x.com")])) (utf16 "message") = .ok (.str (utf16 "Hi"))
      ∧ Route.destructure (.obj (Form.toObj [(utf16 "message", utf16 "Hi"),
          (utf16 "name", utf16 "Ana"), (utf16 "email", utf16 "ana@x.com")]))
          = .ok (.str (utf16 "Ana"), .str (utf16 "ana@x.com"), .str (utf16 "Hi")) :=
  json_round_trip (utf16 "Ana") (utf16 "ana@x.com") (utf16 "Hi")
    [(utf16 "message", utf16 "Hi"), (utf16 "name", utf16 "Ana"), (utf16 "email", utf16 "ana@x.com")]
    (@List.perm_append_comm (JsString × JsString) [(utf16 "message", utf16 "Hi")]
      [(utf16 "name", utf16 "Ana"), (utf16 "email", utf16 "ana@x.com")])

/-- What the `try` block of the endpoint comes to on a form of strings when
the provider throws, at its construction or at the send call: the `catch`
block on the thrown value. -/
theorem POST_provider_throws (env : Route.Env) (w : Route.Server) (n e m : JsString)
    (error : JsVal) (text : Option String)
    (hthrow : env.Resend env.RESEND_KEY = .error error
      ∨ ∃ resend, env.Resend env.RESEND_KEY = .ok resend
          ∧ resend.send { from_ := "Muhammad Abdullah <onboarding@resend.dev>"
                          to_ := .str e
                          subject := "✅ We received your message"
                          text := Route.emailText n m } = .error error)
    (hwrite : JSON.stringify (.obj [(utf16 "success", .bool false), (utf16 "error", error)])
      = .ok text) :
    (Route.POST env { body := (submitInit (mkForm n e m)).body } w).1
      = .ok { body := text, status := 500 } := by
  have hjson := submit_json (mkForm n e m) (mkForm_keys n e m) (mkForm_noIndex n e m)
  have h1 : utf16 "name" ≠ utf16 "email" := by decide
  have h2 : utf16 "name" ≠ utf16 "message" := by decide
  have h3 : utf16 "email" ≠ utf16 "message" := by decide
  have hdes : Route.destructure (.obj (Form.toObj (mkForm n e m)))
      = .ok (.str n, .str e, .str m) := by
    simp [Route.destructure, JsVal.getProp, mkForm, Form.toObj, Obj.get, h1, h2, h3]
  have hmsg : Route.mkMessage (.str n) (.str e) (.str m)
      = .ok { from_ := "Muhammad Abdullah <onboarding@resend.dev>"
              to_ := .str e
              subject := "✅ We received your message"
              text := Route.emailText n m } := by
    simp [Route.mkMessage, JsVal.toStr]
  rcases hthrow with h | ⟨r, h4, h5⟩
  · simp [Route.POST, Route.POST.catch, hjson, hdes, h, hwrite]
  · simp [Route.POST, Route.POST.catch, hjson, hdes, h4, hmsg, h5, hwrite]

/-- The client reads the body of a 500 answer as an object whose `success`
is `false`. -/
theorem failure_body_json (error : JsVal) (text : Option String) (status : Nat)
    (hwrite : JSON.stringify (.obj [(utf16 "success", .bool false), (utf16 "error", error)])
      = .ok text) :
    ∃ data, Response.json { body := text, status := status } = .ok data
      ∧ data.getProp (utf16 "success") = .ok (.bool false) := by
  obtain ⟨s, hs, hbom⟩ := JSON.stringify_obj _ _ hwrite
  subst hs
  have hparse := JSON.parse_stringify _ s hwrite
  refine ⟨jsonImage (.obj [(utf16 "success", .bool false), (utf16 "error", error)]), ?_, ?_⟩
  · simp [Response.json, hbom, hparse]
  have hne : utf16 "success" ≠ utf16 "error" := by decide
  cases hse : serialize error <;>
    simp [jsonImage, jsonImageProps, serialize, hse, Obj.set, Obj.get, JsVal.getProp, hne]

/-- C8, as stated, fails: when the provider's send call throws an object
that holds a BigInt, the endpoint rejects; it returns no response of its
own, and so no body whose `success` is `false`. -/
theorem submit_provider_throws_counterexample :
    ¬ ∀ (env : Route.Env) (w : Route.Server) (n e m : JsString) (error : JsVal),
        (env.Resend env.RESEND_KEY = .error error
          ∨ ∃ resend, env.Resend env.RESEND_KEY = .ok resend
              ∧ resend.send { from_ := "Muhammad Abdullah <onboarding@resend.dev>"
                              to_ := .str e
                              subject := "✅ We received your message"
                              text := Route.emailText n m } = .error error) →
        ∃ res, (Route.POST env { body := (submitInit (mkForm n e m)).body } w).1 = .ok res
          ∧ res.status = 500
          ∧ ∃ data, res.json = .ok data ∧ data.getProp (utf16 "success") = .ok (.bool false) := by
  intro h
  obtain ⟨res, hres, _⟩ := h bigintThrowingEnv freshServer (utf16 "Ana") (utf16 "ana@x.com")
    (utf16 "Hi") (.obj [(utf16 "code", .bigint 1)]) (Or.inr ⟨bigintThrowingClient, rfl, rfl⟩)
  have hrej : (Route.POST bigintThrowingEnv
      { body := (submitInit (mkForm (utf16 "Ana") (utf16 "ana@x.com") (utf16 "Hi"))).body }
      freshServer).1 = .error (typeError "Do not know how to serialize a BigInt") := rfl
  rw [hrej] at hres
  cases hres

/-- C8, amended: for a submission of three strings on which the provider
throws (at its construction or at the send call) a value that
`JSON.stringify` can write, the endpoint answers 500 with a body that the
client parses to an object whose `success` is `false`; the client then shows
the failure status "❌ Failed to send email." and the form's fields stay as
the user left them. -/
theorem submit_provider_throws (env : Route.Env) (w : Route.Server) (crash : Response)
    (st : ContactPage) (n e m : JsString) (error : JsVal) (text : Option String)
    (hform : st.form = mkForm n e m)
    (hthrow : env.Resend env.RESEND_KEY = .error error
      ∨ ∃ resend, env.Resend env.RESEND_KEY = .ok resend
          ∧ resend.send { from_ := "Muhammad Abdullah <onboarding@resend.dev>"
                          to_ := .str e
                          subject := "✅ We received your message"
                          text := Route.emailText n m } = .error error)
    (hwrite : JSON.stringify (.obj [(utf16 "success", .bool false), (utf16 "error", error)])
      = .ok text) :
    (Route.POST env { body := (submitInit st.form).body } w).1
        = .ok { body := text, status := 500 }
      ∧ (∃ data, Response.json { body := text, status := 500 } = .ok data
          ∧ data.getProp (utf16 "success") = .ok (.bool false))
      ∧ (st.run (handleSubmit (relay env w crash) st)).status = "❌ Failed to send email."
      ∧ includes (st.run (handleSubmit (relay env w crash) st)).status "❌"
      ∧ (st.run (handleSubmit (relay env w crash) st)).form = st.form
      ∧ Form.get (st.run (handleSubmit (relay env w crash) st)).form (utf16 "name") = .str n
      ∧ Form.get (st.run (handleSubmit (relay env w crash) st)).form (utf16 "email") = .str e
      ∧ Form.get (st.run (handleSubmit (relay env w crash) st)).form (utf16 "message")
          = .str m := by
  obtain ⟨form, status, loading⟩ := st
  simp only at hform
  subst hform
  have hpost := POST_provider_throws env w n e m error text hthrow hwrite
  obtain ⟨data, hdata, hsucc⟩ := failure_body_json error text 500 hwrite
  have hnet : relay env w crash "/api/sendEmail" (submitInit (mkForm n e m))
      = .ok { body := text, status := 500 } := by
    have hmethod : (submitInit (mkForm n e m)).method = "POST" := rfl
    simp only [relay, hmethod, if_true, hpost]
  have hrun : ContactPage.run { form := mkForm n e m, status := status, loading := loading }
      (handleSubmit (relay env w crash)
        { form := mkForm n e m, status := status, loading := loading })
      = { form := mkForm n e m, status := "❌ Failed to send email.", loading := false } := by
    simp [handleSubmit, handleSubmit.tryBlock, hnet, hdata, hsucc, JsVal.truthy,
      ContactPage.run, ContactPage.apply]
  have h1 : utf16 "name" ≠ utf16 "email" := by decide
  have h2 : utf16 "name" ≠ utf16 "message" := by decide
  have h3 : utf16 "email" ≠ utf16 "message" := by decide
  rw [hrun, hpost]
  refine ⟨rfl, ⟨data, hdata, hsucc⟩, rfl, ?_, rfl, ?_, ?_, ?_⟩
  · show includes "❌ Failed to send email." "❌"
    decide
  · simp [Form.get, Form.toObj, mkForm, Obj.get]
  · simp [Form.get, Form.toObj, mkForm, Obj.get, h1]
  · simp [Form.get, Form.toObj, mkForm, Obj.get, h2, h3]

/-- The sample form submitted to a deployment whose provider throws on send. -/
theorem submit_provider_throws_witness :
    (Route.POST failingEnv { body := (submitInit anaPage.form).body } freshServer).1
        = .ok { body := some "\x7b\"success\":false,\"error\":\x7b\x7d\x7d", status := 500 }
      ∧ (∃ data, Response.json
            { body := some "\x7b\"success\":false,\"error\":\x7b\x7d\x7d", status := 500 } = .ok data
          ∧ data.getProp (utf16 "success") = .ok (.bool false))
      ∧ (anaPage.run (handleSubmit (relay failingEnv freshServer crashResponse) anaPage)).status
          = "❌ Failed to send email."
      ∧ includes
          (anaPage.run (handleSubmit (relay failingEnv freshServer crashResponse) anaPage)).status
          "❌"
      ∧ (anaPage.run (handleSubmit (relay failingEnv freshServer crashResponse) anaPage)).form
          = anaPage.form
      ∧ Form.get
          (anaPage.run (handleSubmit (relay failingEnv freshServer crashResponse) anaPage)).form
          (utf16 "name") = .str (utf16 "Ana")
      ∧ Form.get
          (anaPage.run (handleSubmit (relay failingEnv freshServer crashResponse) anaPage)).form
          (utf16 "email") = .str (utf16 "ana@x.com")
      ∧ Form.get
          (anaPage.run (handleSubmit (relay failingEnv freshServer crashResponse) anaPage)).form
          (utf16 "message") = .str (utf16 "Hi") :=
  submit_provider_throws failingEnv freshServer crashResponse anaPage (utf16 "Ana")
    (utf16 "ana@x.com") (utf16 "Hi") (.error (utf16 "Error") (utf16 "fetch failed"))
    (some "\x7b\"success\":false,\"error\":\x7b\x7d\x7d") rfl
    (Or.inr ⟨throwingClient, rfl, rfl⟩) rfl

end Contact
